import Mathlib

/-!
Verification development for the wargame2d grid-combat simulation core.

The definitions below are a shallow embedding of the Python sources:
  - src/env/core/types.py, src/env/core/actions.py, src/env/core/validation.py
  - src/env/world/grid.py, src/env/world/team_view.py, src/env/world/world.py
  - src/env/entities/sam.py, awacs.py, decoy.py
  - src/env/mechanics/movement.py, src/env/mechanics/victory.py
  - src/env/environment.py
  - src/old_approach_files_for_reference/wargame_2d/env.py (reference implementation)

Modelling conventions:
  - Grid positions are pairs of integers; Python floats (radar ranges,
    missile ranges, hit probabilities) are modelled as exact rationals.
  - `math.hypot` returns the exact Euclidean distance; a comparison
    `distance <= r` with a rational threshold `r` is equivalent to
    `0 <= r && distSq <= r^2`, which is how range gating is embedded
    (`distSq` is the squared Euclidean distance, an integer).
  - Python dictionaries keyed by entity id are modelled as association
    lists; `dict.get` is `find?` on the key.
  - Exceptions (`raise ValueError`) are modelled as `Option`/`none`.
  - The single seeded `random.Random` owned by `WorldState` is modelled as
    an abstract state `RngState` (a natural number); every draw is a pure
    function of that state returning the next state, which is exactly the
    property the determinism claims depend on.  The Mersenne-Twister
    internals are irrelevant to every claim and are replaced by a simple
    deterministic update.
-/

namespace Wargame

/-- Team affiliation (src/env/core/types.py, class Team). -/
inductive Team where
  | BLUE
  | RED
deriving DecidableEq, Repr

/-- The opposing team (Team.opponent). -/
def Team.opponent : Team → Team
  | .BLUE => .RED
  | .RED => .BLUE

/-- Serialized name of a team (Team.name in Python). -/
def Team.name : Team → String
  | .BLUE => "BLUE"
  | .RED => "RED"

/-- Parse a team from its serialized name (`Team[s]` in Python); raises
(`none`) on any other string. -/
def Team.ofName : String → Option Team
  | "BLUE" => some .BLUE
  | "RED" => some .RED
  | _ => none

/-- Entity kinds (src/env/core/types.py, class EntityKind). -/
inductive EntityKind where
  | aircraft
  | awacs
  | sam
  | decoy
  | unknown
deriving DecidableEq, Repr

/-- Serialized value of an entity kind (EntityKind.value). -/
def EntityKind.value : EntityKind → String
  | .aircraft => "aircraft"
  | .awacs => "awacs"
  | .sam => "sam"
  | .decoy => "decoy"
  | .unknown => "unknown"

/-- Movement directions with their (dx, dy) deltas in mathematical
coordinates, Y+ = UP (src/env/core/types.py, class MoveDir). -/
inductive MoveDir where
  | UP
  | DOWN
  | LEFT
  | RIGHT
deriving DecidableEq, Repr, Fintype

/-- The (dx, dy) movement delta of a direction (MoveDir.delta). -/
def MoveDir.delta : MoveDir → ℤ × ℤ
  | .UP => (0, 1)
  | .DOWN => (0, -1)
  | .LEFT => (-1, 0)
  | .RIGHT => (1, 0)

/-- Actions (src/env/core/actions.py).  The Python `Action` dataclass
validates its parameter shape at construction time, so the closed variant
below is exactly the set of constructible actions: WAIT, MOVE(dir),
SHOOT(target_id), TOGGLE(on). -/
inductive Action where
  | wait
  | move (dir : MoveDir)
  | shoot (targetId : ℕ)
  | toggle (b : Bool)
deriving DecidableEq, Repr

/-- Whether an action is a SHOOT action (action.type == ActionType.SHOOT). -/
def Action.isShoot : Action → Bool
  | .shoot _ => true
  | _ => false

/-- Whether an action is a MOVE action. -/
def Action.isMove : Action → Bool
  | .move _ => true
  | _ => false

/-- Game outcomes (src/env/core/types.py, class GameResult). -/
inductive GameResult where
  | IN_PROGRESS
  | BLUE_WINS
  | RED_WINS
  | DRAW
deriving DecidableEq, Repr

/-- Structured result of validating an action
(src/env/core/types.py, class ActionValidation). -/
structure ActionValidation where
  valid : Bool
  error_code : Option String
  message : String
deriving DecidableEq, Repr

/-- ActionValidation.success (with the default empty message). -/
def ActionValidation.success : ActionValidation :=
  { valid := true, error_code := none, message := "" }

/-- ActionValidation.fail. -/
def ActionValidation.fail (code message : String) : ActionValidation :=
  { valid := false, error_code := some code, message := message }

/-- Grid over (width, height) (src/env/world/grid.py).  The constructor's
positivity check is modelled where the grid is constructed from data
(`WorldState.from_dict`). -/
structure Grid where
  width : ℤ
  height : ℤ
deriving DecidableEq, Repr

/-- Grid.in_bounds: 0 <= x < width and 0 <= y < height. -/
def Grid.in_bounds (g : Grid) (p : ℤ × ℤ) : Bool :=
  decide (0 ≤ p.1 ∧ p.1 < g.width ∧ 0 ≤ p.2 ∧ p.2 < g.height)

/-- Squared Euclidean distance between two grid positions.
`Grid.distance` (math.hypot) returns its square root; all range
comparisons in the embedding go through this square. -/
def distSq (a b : ℤ × ℤ) : ℤ :=
  (a.1 - b.1) ^ 2 + (a.2 - b.2) ^ 2

/-- Embeds the comparison `Grid.distance a b <= r` for a rational
threshold `r`: equivalent to `0 <= r` and `distSq a b <= r^2`. -/
def distLe (a b : ℤ × ℤ) (r : ℚ) : Bool :=
  decide (0 ≤ r ∧ (distSq a b : ℚ) ≤ r ^ 2)

/-- Embeds the comparison `Grid.distance a b > r`. -/
def distGt (a b : ℤ × ℤ) (r : ℚ) : Bool :=
  ! distLe a b r

/-- State of the seeded `random.Random` instance owned by `WorldState`
(src/env/world/world.py line 77).  Modelled abstractly: what every claim
uses is that each draw is a deterministic function of this state. -/
abbrev RngState : Type := ℕ

/-- One draw from the world RNG: returns a number and the successor
state (stand-in for one step of the Mersenne Twister). -/
def rngNext (s : RngState) : ℕ × RngState :=
  let s' : ℕ := (1664525 * s + 1013904223) % 4294967296
  (s', s')

/-- Recursion core of the shuffle model, structurally recursive on a
fuel argument (`fuel = xs.length` at the top call; each round removes
one element, so the fuel never runs out there). -/
def rngShuffleAux {α : Type} [DecidableEq α] : ℕ → RngState → List α → List α × RngState
  | 0, s, xs => (xs, s)
  | _ + 1, s, [] => ([], s)
  | fuel + 1, s, x :: rest =>
    let xs := x :: rest
    let draw := rngNext s
    let y := xs.get ⟨draw.1 % xs.length, Nat.mod_lt _ (by simp [xs])⟩
    let recStep := rngShuffleAux fuel draw.2 (xs.erase y)
    (y :: recStep.1, recStep.2)

/-- Models `rng.shuffle(xs)`: a deterministic permutation of `xs` driven
by the world RNG state (repeatedly draw an index, move that element to
the front of the remainder). -/
def rngShuffle {α : Type} [DecidableEq α] (s : RngState) (xs : List α) :
    List α × RngState :=
  rngShuffleAux xs.length s xs

/-- Entities.  The Python sources define a dataclass hierarchy
(Entity base with Aircraft / AWACS / SAM / Decoy leaves, and Shooter in
the reference implementation); the embedding flattens it into one record
with a `kind` tag, kind-specific constructors below reproducing each
dataclass's fixed type traits, and fields that a kind does not have left
at their neutral defaults. -/
structure Entity where
  id : ℕ
  team : Team
  pos : ℤ × ℤ
  kind : EntityKind
  name : String
  alive : Bool
  canMove : Bool
  canShoot : Bool
  radarRange : ℚ
  missiles : ℤ
  missileMaxRange : ℚ
  baseHitProb : ℚ
  minHitProb : ℚ
  radarOn : Bool
  cooldownSteps : ℤ
  cooldown : ℤ
  lastAction : Option Action
deriving DecidableEq, Repr

/-- Whether the entity is a SAM (isinstance(entity, SAM) in Python; the
SAM dataclass pins kind = EntityKind.SAM). -/
def Entity.isSAM (e : Entity) : Bool :=
  e.kind = .sam

/-- Aircraft constructor (src/env/entities/aircraft.py dataclass traits:
kind=aircraft, can_move=True, can_shoot=True; stats explicit). -/
def mkAircraft (id : ℕ) (team : Team) (pos : ℤ × ℤ) (name : String)
    (radarRange : ℚ) (missiles : ℤ) (missileMaxRange baseHitProb minHitProb : ℚ) : Entity :=
  { id := id, team := team, pos := pos, kind := .aircraft, name := name,
    alive := true, canMove := true, canShoot := true,
    radarRange := radarRange, missiles := missiles,
    missileMaxRange := missileMaxRange, baseHitProb := baseHitProb,
    minHitProb := minHitProb, radarOn := false, cooldownSteps := 0,
    cooldown := 0, lastAction := none }

/-- AWACS constructor (src/env/entities/awacs.py: kind=awacs,
can_move=True, can_shoot=False, radar_range explicit). -/
def mkAWACS (id : ℕ) (team : Team) (pos : ℤ × ℤ) (name : String)
    (radarRange : ℚ) : Entity :=
  { id := id, team := team, pos := pos, kind := .awacs, name := name,
    alive := true, canMove := true, canShoot := false,
    radarRange := radarRange, missiles := 0, missileMaxRange := 0,
    baseHitProb := 0, minHitProb := 0, radarOn := false, cooldownSteps := 0,
    cooldown := 0, lastAction := none }

/-- SAM constructor (src/env/entities/sam.py: kind=sam, can_move=False,
can_shoot=True, on default False, _cooldown default 0, stats explicit). -/
def mkSAM (id : ℕ) (team : Team) (pos : ℤ × ℤ) (name : String)
    (radarRange : ℚ) (missiles : ℤ) (missileMaxRange baseHitProb minHitProb : ℚ)
    (cooldownSteps : ℤ) (radarOn : Bool) : Entity :=
  { id := id, team := team, pos := pos, kind := .sam, name := name,
    alive := true, canMove := false, canShoot := true,
    radarRange := radarRange, missiles := missiles,
    missileMaxRange := missileMaxRange, baseHitProb := baseHitProb,
    minHitProb := minHitProb, radarOn := radarOn, cooldownSteps := cooldownSteps,
    cooldown := 0, lastAction := none }

/-- Decoy constructor (src/env/entities/decoy.py: kind=decoy,
can_move=True, can_shoot=False, radar_range fixed at 0.0). -/
def mkDecoy (id : ℕ) (team : Team) (pos : ℤ × ℤ) (name : String) : Entity :=
  { id := id, team := team, pos := pos, kind := .decoy, name := name,
    alive := true, canMove := true, canShoot := false,
    radarRange := 0, missiles := 0, missileMaxRange := 0,
    baseHitProb := 0, minHitProb := 0, radarOn := false, cooldownSteps := 0,
    cooldown := 0, lastAction := none }

/-- Entity.get_active_radar_range: the SAM override returns the radar
range only while toggled on (src/env/entities/sam.py lines 78-88);
every other kind returns its radar range unconditionally. -/
def Entity.get_active_radar_range (e : Entity) : ℚ :=
  if e.isSAM then (if e.radarOn then e.radarRange else 0) else e.radarRange

/-- SAM.tick_cooldown (src/env/entities/sam.py lines 161-168): decrease
the cooldown counter by 1 if it is positive, else leave it. -/
def Entity.tick_cooldown (e : Entity) : Entity :=
  if 0 < e.cooldown then { e with cooldown := e.cooldown - 1 } else e

/-- SAM.start_cooldown (src/env/entities/sam.py lines 170-176). -/
def Entity.start_cooldown (e : Entity) : Entity :=
  { e with cooldown := e.cooldownSteps }

/-- Entity label (Entity.label) used in log strings. -/
def Entity.label (e : Entity) : String :=
  e.name ++ "#" ++ toString e.id ++ "(" ++ e.team.name ++ ")"

/-- An observation of one entity by one observer
(src/old_approach_files_for_reference/wargame_2d/env.py, dataclass
Observation; the rewritten core's src/env/core/observations.py carries
the same data).  The source stores the Euclidean distance at which the
entity was observed; the embedding carries its square `dSq`, an
information-equivalent exact encoding (d is nonnegative, so d ↦ d² is
injective). -/
structure Observation where
  entity_id : ℕ
  kind : EntityKind
  team : Team
  position : ℤ × ℤ
  dSq : ℤ
  seen_by : List ℕ
deriving DecidableEq, Repr

/-- Per-team aggregated view (src/env/world/team_view.py, class TeamView;
the reference implementation calls it CommandCenter).  Only
`enemy_firing_history` is persistent; the rest is derived each turn.
The firing history is an insertion-ordered association list, matching the
Python dict. -/
structure TeamView where
  team : Team
  observations : List Observation
  friendly_ids : List ℕ
  visible_enemy_ids : List ℕ
  enemy_firing_history : List (ℕ × Bool)
deriving DecidableEq, Repr

/-- Fresh team view (TeamView.__init__). -/
def TeamView.init (t : Team) : TeamView :=
  { team := t, observations := [], friendly_ids := [],
    visible_enemy_ids := [], enemy_firing_history := [] }

/-- TeamView.can_target: entity is a currently visible enemy. -/
def TeamView.can_target (v : TeamView) (targetId : ℕ) : Bool :=
  v.visible_enemy_ids.contains targetId

/-- TeamView.record_enemy_fired: set the sticky has-fired flag
(Python dict assignment: overwrite if the key exists, else append). -/
def TeamView.record_enemy_fired (v : TeamView) (entityId : ℕ) : TeamView :=
  if v.enemy_firing_history.any (·.1 = entityId) then
    { v with enemy_firing_history :=
        v.enemy_firing_history.map (fun p => if p.1 = entityId then (p.1, true) else p) }
  else
    { v with enemy_firing_history := v.enemy_firing_history ++ [(entityId, true)] }

/-- TeamView.add_observation: record an observation, merging `seen_by`
when the entity was already observed (first observation's data kept, as
in CommandCenter.ingest), and tracking enemy visibility (the Python set
add is an append-if-absent on the insertion-ordered list). -/
def TeamView.add_observation (v : TeamView) (obs : Observation) : TeamView :=
  { v with
    observations :=
      if v.observations.any (·.entity_id = obs.entity_id) then
        v.observations.map (fun o =>
          if o.entity_id = obs.entity_id then
            { o with seen_by := o.seen_by ++ obs.seen_by.filter (fun i => ! o.seen_by.contains i) }
          else o)
      else v.observations ++ [obs],
    visible_enemy_ids :=
      if obs.team ≠ v.team ∧ ¬ v.visible_enemy_ids.contains obs.entity_id then
        v.visible_enemy_ids ++ [obs.entity_id]
      else v.visible_enemy_ids }

/-- TeamView.add_observations. -/
def TeamView.add_observations (v : TeamView) (l : List Observation) : TeamView :=
  l.foldl TeamView.add_observation v

/-- The central game state (src/env/world/world.py, class WorldState).
`entities` is `_entities` in declaration order; `_entities_by_id` is the
derived lookup `get_entity`.  The two team views are separate fields
(the Python dict is built with BLUE then RED, in that fixed order). -/
structure WorldState where
  grid : Grid
  entities : List Entity
  blueView : TeamView
  redView : TeamView
  turn : ℤ
  game_over : Bool
  winner : Option Team
  game_over_reason : String
  turns_without_shooting : ℤ
  turns_without_movement : ℤ
  rng : RngState
  pending_kills : List ℕ
deriving DecidableEq, Repr

/-- WorldState.get_team_view. -/
def WorldState.get_team_view (w : WorldState) : Team → TeamView
  | .BLUE => w.blueView
  | .RED => w.redView

/-- Replace one team's view. -/
def WorldState.set_team_view (w : WorldState) (t : Team) (v : TeamView) : WorldState :=
  match t with
  | .BLUE => { w with blueView := v }
  | .RED => { w with redView := v }

/-- WorldState.get_entity: lookup by id (`_entities_by_id.get`). -/
def WorldState.get_entity (w : WorldState) (entityId : ℕ) : Option Entity :=
  w.entities.find? (·.id = entityId)

/-- WorldState.get_alive_entities. -/
def WorldState.get_alive_entities (w : WorldState) : List Entity :=
  w.entities.filter (·.alive)

/-- WorldState.get_team_entities with alive_only=True. -/
def WorldState.get_team_entities (w : WorldState) (t : Team) : List Entity :=
  (w.entities.filter (·.team = t)).filter (·.alive)

/-- WorldState.is_position_occupied: some living entity is at `pos`
(src/env/world/world.py lines 146-156). -/
def WorldState.is_position_occupied (w : WorldState) (pos : ℤ × ℤ) : Bool :=
  w.entities.any (fun e => e.alive ∧ e.pos = pos)

/-- WorldState.add_entity (src/env/world/world.py lines 86-108): append
the entity, rejecting (raise ValueError, modelled as `none`)
out-of-bounds or occupied positions. -/
def WorldState.add_entity (w : WorldState) (e : Entity) : Option WorldState :=
  if ¬ w.grid.in_bounds e.pos then none
  else if w.is_position_occupied e.pos then none
  else some { w with entities := w.entities ++ [e] }

/-- WorldState.mark_for_kill (duplicates are absorbed: `_pending_kills`
is a Python set). -/
def WorldState.mark_for_kill (w : WorldState) (entityId : ℕ) : WorldState :=
  if w.pending_kills.contains entityId then w
  else { w with pending_kills := w.pending_kills ++ [entityId] }

/-- Fresh world (WorldState.__init__ with the given seed state). -/
def WorldState.init (width height : ℤ) (rng : RngState) : WorldState :=
  { grid := { width := width, height := height },
    entities := [],
    blueView := TeamView.init .BLUE,
    redView := TeamView.init .RED,
    turn := 0, game_over := false, winner := none, game_over_reason := "",
    turns_without_shooting := 0, turns_without_movement := 0,
    rng := rng, pending_kills := [] }

/-- Modelled from the spec: `Entity.validate_action` of the missing
src/env/entities/base.py, together with the SAM-specific `_validate_shoot`
override that IS present (src/env/entities/sam.py lines 132-159).  Per
spec section 4.2 the entity-level layer checks: alive? capability flag
set? ammo > 0? cooldown == 0? parameter shape correct? — and returns a
structured failure from the closed error taxonomy.  Bounds, collision and
target checks are the world-level layer (`validate_action_in_world`),
not this one.  The parameter-shape checks always pass here because the
embedded `Action` type is exactly the set of shape-valid actions. -/
def Entity.validate_action (e : Entity) (a : Action) : ActionValidation :=
  if ¬ e.alive then .fail "ENTITY_DEAD" (e.label ++ " is dead")
  else
    match a with
    | .wait => .success
    | .move _ =>
      if ¬ e.canMove then .fail "NO_CAPABILITY" (e.label ++ " cannot move")
      else .success
    | .shoot _ =>
      if ¬ e.canShoot then .fail "NO_CAPABILITY" (e.label ++ " cannot shoot")
      else if e.missiles ≤ 0 then .fail "NO_MISSILES" (e.label ++ " has no missiles")
      else if e.isSAM ∧ ¬ e.radarOn then .fail "RADAR_OFF" (e.label ++ " radar is OFF")
      else if e.isSAM ∧ 0 < e.cooldown then
        .fail "COOLING_DOWN" (e.label ++ " cooling down (" ++ toString e.cooldown ++ " turns remaining)")
      else .success
    | .toggle _ =>
      if ¬ e.isSAM then .fail "NOT_SAM" (e.label ++ " cannot toggle (not a SAM)")
      else .success

/-- validate_action_in_world (src/env/core/validation.py): entity-level
validation, then world-dependent rules — bounds for MOVE; target
validity, visibility, and weapon range for SHOOT.  `getattr(entity,
"missile_max_range", None)` yielding None for non-shooters corresponds
to the flattened default 0, caught by the same `<= 0` branch. -/
def validate_action_in_world (w : WorldState) (e : Entity) (a : Action) : ActionValidation :=
  let base := e.validate_action a
  if ¬ base.valid then base
  else
    match a with
    | .move dir =>
      let d := dir.delta
      let newPos := (e.pos.1 + d.1, e.pos.2 + d.2)
      if ¬ w.grid.in_bounds newPos then
        .fail "OUT_OF_BOUNDS" (e.label ++ " cannot move (out of bounds)")
      else .success
    | .shoot targetId =>
      match w.get_entity targetId with
      | none => .fail "INVALID_TARGET" (e.label ++ " target invalid or dead")
      | some target =>
        if ¬ target.alive then .fail "INVALID_TARGET" (e.label ++ " target invalid or dead")
        else if ¬ (w.get_team_view e.team).can_target targetId then
          .fail "NOT_VISIBLE" (e.label ++ " cannot target " ++ target.label ++ " (not observed)")
        else if e.missileMaxRange ≤ 0 then
          .fail "NO_CAPABILITY" (e.label ++ " has no missile range configured")
        else if distGt e.pos target.pos e.missileMaxRange then
          .fail "OUT_OF_RANGE" (e.label ++ " target out of range")
        else .success
    | _ => base

/-- The per-turn action map `Dict[int, Action]`, as an association
list keyed by entity id. -/
abbrev Actions := List (ℕ × Action)

/-- Dictionary lookup `actions.get(entity_id)`. -/
def Actions.get (acts : Actions) (entityId : ℕ) : Option Action :=
  (acts.find? (·.1 = entityId)).map (·.2)

/-- Result of resolving a single movement action
(src/env/mechanics/movement.py, dataclass MovementResult). -/
structure MovementResult where
  entity_id : ℕ
  success : Bool
  old_pos : ℤ × ℤ
  new_pos : ℤ × ℤ
  log : String
deriving DecidableEq, Repr

/-- MovementResolver.resolve_single (src/env/mechanics/movement.py lines
163-229).  Entity identity is the index into `WorldState.entities` (the
Python list holds object references; mutation in place is an indexed
update here).  Faithful to the source: entity-LEVEL validation only, no
bounds re-check (removed in the source, see its lines 205-207), then the
dynamic collision check against current occupancy.  The `none` index
case and the non-MOVE case are unreachable from `resolve_all`, which
only feeds indices of alive entities holding MOVE actions. -/
def MovementResolver.resolve_single (w : WorldState) (idx : ℕ) (a : Action) :
    WorldState × MovementResult :=
  match w.entities.get? idx with
  | none => (w, { entity_id := 0, success := false, old_pos := (0, 0),
                  new_pos := (0, 0), log := "no such entity" })
  | some e =>
    let validation := e.validate_action a
    if ¬ validation.valid then
      (w, { entity_id := e.id, success := false, old_pos := e.pos,
            new_pos := e.pos, log := validation.message })
    else
      match a with
      | .move dir =>
        let d := dir.delta
        let newPos := (e.pos.1 + d.1, e.pos.2 + d.2)
        if w.is_position_occupied newPos then
          (w, { entity_id := e.id, success := false, old_pos := e.pos,
                new_pos := e.pos,
                log := e.label ++ " blocked by another entity" })
        else
          ({ w with entities := w.entities.set idx { e with pos := newPos, lastAction := some a } },
           { entity_id := e.id, success := true, old_pos := e.pos,
             new_pos := newPos, log := e.label ++ " moves" })
      | _ => (w, { entity_id := e.id, success := false, old_pos := e.pos,
                   new_pos := e.pos, log := "not a movement action" })

/-- Indices (in `WorldState.entities`) of the alive entities whose
submitted action is a MOVE — `moving_entities` in resolve_all.  Dead or
unknown ids in the action map never appear here. -/
def movingIndices (w : WorldState) (acts : Actions) : List ℕ :=
  (List.range w.entities.length).filter (fun i =>
    match w.entities.get? i with
    | some e => e.alive ∧ (acts.get e.id).any Action.isMove
    | none => false)

/-- The action submitted for the entity currently at index `idx`
(`actions[entity.id]`; `.wait` is unreachable for indices produced by
`movingIndices`, whose entities always hold an action). -/
def actionAt (w : WorldState) (acts : Actions) (idx : ℕ) : Action :=
  match w.entities.get? idx with
  | some e => (acts.get e.id).getD .wait
  | none => .wait

/-- MovementResolver.resolve_all (src/env/mechanics/movement.py lines
122-161): queue the MOVE actions of alive entities, shuffle the queue
with the world's seeded RNG when `randomize_order`, then resolve
sequentially with dynamic collision checking. -/
def MovementResolver.resolve_all (w : WorldState) (acts : Actions)
    (randomize_order : Bool) : WorldState × List MovementResult :=
  let movers := movingIndices w acts
  let shuffled := if randomize_order then rngShuffle w.rng movers else (movers, w.rng)
  let w0 := { w with rng := shuffled.2 }
  shuffled.1.foldl
    (fun p idx =>
      let step := MovementResolver.resolve_single p.1 idx (actionAt p.1 acts idx)
      (step.1, p.2 ++ [step.2]))
    (w0, ([] : List MovementResult))

/-- Indices of the alive entities (iteration order of
`world.get_alive_entities()` within `WorldState.entities`). -/
def aliveIndices (w : WorldState) : List ℕ :=
  (List.range w.entities.length).filter (fun i =>
    match w.entities.get? i with
    | some e => e.alive
    | none => false)

/-- MovementResolver._resolve_toggle applied at one index
(src/env/mechanics/movement.py lines 262-293): non-SAM entities produce
a log only; a SAM's radar flag is set to the requested state.  The
`isinstance(desired_state, bool)` check always passes in the embedding
(TOGGLE carries a Bool by construction). -/
def MovementResolver.resolve_toggle_single (w : WorldState) (idx : ℕ) (b : Bool) :
    WorldState × String :=
  match w.entities.get? idx with
  | none => (w, "no such entity")
  | some e =>
    if ¬ e.isSAM then (w, e.label ++ " cannot toggle (not a SAM)")
    else
      ({ w with entities := w.entities.set idx { e with radarOn := b, lastAction := some (.toggle b) } },
       e.label ++ " radar toggled")

/-- MovementResolver.resolve_toggles (src/env/mechanics/movement.py lines
231-260): every alive entity whose submitted action is a TOGGLE. -/
def MovementResolver.resolve_toggles (w : WorldState) (acts : Actions) :
    WorldState × List String :=
  (aliveIndices w).foldl
    (fun p idx =>
      match actionAt p.1 acts idx with
      | .toggle b =>
        let step := MovementResolver.resolve_toggle_single p.1 idx b
        (step.1, p.2 ++ [step.2])
      | _ => p)
    (w, ([] : List String))

/-- MovementResolver.resolve_waits (src/env/mechanics/movement.py lines
295-323): record WAIT as the last action of alive waiting entities. -/
def MovementResolver.resolve_waits (w : WorldState) (acts : Actions) :
    WorldState × List String :=
  (aliveIndices w).foldl
    (fun p idx =>
      match actionAt p.1 acts idx with
      | .wait =>
        match p.1.entities.get? idx with
        | some e =>
          ({ p.1 with entities := p.1.entities.set idx { e with lastAction := some .wait } },
           p.2 ++ [e.label ++ " waits"])
        | none => p
      | _ => p)
    (w, ([] : List String))

/-- Complete result of resolving all non-combat actions for a turn
(src/env/mechanics/movement.py, dataclass ActionResolutionResult). -/
structure ActionResolutionResult where
  movement_results : List MovementResult
  toggle_logs : List String
  wait_logs : List String
  movement_occurred : Bool
deriving DecidableEq, Repr

/-- MovementResolver.resolve_actions (src/env/mechanics/movement.py lines
77-120): movement, then toggles, then waits; reset
`turns_without_movement` to 0 if any move succeeded, else increment. -/
def MovementResolver.resolve_actions (w : WorldState) (acts : Actions)
    (randomize_order : Bool) : WorldState × ActionResolutionResult :=
  let mv := MovementResolver.resolve_all w acts randomize_order
  let tg := MovementResolver.resolve_toggles mv.1 acts
  let wt := MovementResolver.resolve_waits tg.1 acts
  let moved := mv.2.any (·.success)
  let w' :=
    if moved then { wt.1 with turns_without_movement := 0 }
    else { wt.1 with turns_without_movement := wt.1.turns_without_movement + 1 }
  (w', { movement_results := mv.2, toggle_logs := tg.2, wait_logs := wt.2,
         movement_occurred := moved })

/-- Result of a victory condition check
(src/env/mechanics/victory.py, dataclass VictoryResult). -/
structure VictoryResult where
  result : GameResult
  reason : String
  winner : Option Team
deriving DecidableEq, Repr

/-- VictoryResult.is_game_over. -/
def VictoryResult.is_game_over (r : VictoryResult) : Bool :=
  r.result ≠ .IN_PROGRESS

/-- Configuration of the victory checker
(VictoryConditions.__init__ arguments). -/
structure VictoryConfig where
  max_stalemate_turns : ℤ
  max_no_move_turns : ℤ
  max_turns : Option ℤ
  check_missile_exhaustion : Bool
deriving DecidableEq, Repr

/-- VictoryConditions.check_awacs_destruction
(src/env/mechanics/victory.py lines 166-240), over ALL entities
(dead ones included) to decide existence in the scenario. -/
def VictoryConditions.check_awacs_destruction (w : WorldState) : VictoryResult :=
  let blueExists := w.entities.any (fun e => e.kind = .awacs ∧ e.team = .BLUE)
  let redExists := w.entities.any (fun e => e.kind = .awacs ∧ e.team = .RED)
  if ¬ blueExists ∧ ¬ redExists then
    { result := .IN_PROGRESS, reason := "No AWACS in scenario", winner := none }
  else
    let blueAlive := w.entities.any (fun e => e.kind = .awacs ∧ e.team = .BLUE ∧ e.alive)
    let redAlive := w.entities.any (fun e => e.kind = .awacs ∧ e.team = .RED ∧ e.alive)
    if blueExists ∧ redExists ∧ ¬ blueAlive ∧ ¬ redAlive then
      { result := .DRAW, reason := "Both AWACS destroyed - DRAW", winner := none }
    else if blueExists ∧ ¬ blueAlive then
      { result := .RED_WINS, reason := "BLUE AWACS destroyed - RED WINS", winner := some .RED }
    else if redExists ∧ ¬ redAlive then
      { result := .BLUE_WINS, reason := "RED AWACS destroyed - BLUE WINS", winner := some .BLUE }
    else
      { result := .IN_PROGRESS, reason := "Both AWACS alive", winner := none }

/-- VictoryConditions.check_all_enemies_destroyed
(src/env/mechanics/victory.py lines 242-288). -/
def VictoryConditions.check_all_enemies_destroyed (w : WorldState) : VictoryResult :=
  let blueAlive := w.get_team_entities .BLUE
  let redAlive := w.get_team_entities .RED
  if blueAlive.length = 0 ∧ redAlive.length = 0 then
    { result := .DRAW, reason := "All entities destroyed - DRAW", winner := none }
  else if blueAlive.length = 0 then
    { result := .RED_WINS, reason := "All BLUE entities destroyed - RED WINS", winner := some .RED }
  else if redAlive.length = 0 then
    { result := .BLUE_WINS, reason := "All RED entities destroyed - BLUE WINS", winner := some .BLUE }
  else
    { result := .IN_PROGRESS, reason := "Both teams have surviving entities", winner := none }

/-- The `hasattr(entity, 'missiles')` test of the source: only the
Shooter kinds (Aircraft and SAM dataclasses) define the attribute. -/
def Entity.hasMissilesAttr (e : Entity) : Bool :=
  e.kind = .aircraft ∨ e.kind = .sam

/-- VictoryConditions.check_missile_exhaustion
(src/env/mechanics/victory.py lines 290-321): total missiles over alive
shooter entities. -/
def VictoryConditions.check_missile_exhaustion (w : WorldState) : VictoryResult :=
  let total := (w.get_alive_entities.filter Entity.hasMissilesAttr).foldl
    (fun acc e => acc + e.missiles) 0
  if total = 0 then
    { result := .DRAW, reason := "No missiles remaining - DRAW", winner := none }
  else
    { result := .IN_PROGRESS, reason := toString total ++ " missiles remaining", winner := none }

/-- VictoryConditions.check_turn_limit
(src/env/mechanics/victory.py lines 323-344). -/
def VictoryConditions.check_turn_limit (cfg : VictoryConfig) (currentTurn : ℤ) : VictoryResult :=
  match cfg.max_turns with
  | some m =>
    if m ≤ currentTurn then
      { result := .DRAW, reason := "Turn limit reached (" ++ toString m ++ ") - DRAW", winner := none }
    else
      { result := .IN_PROGRESS, reason := "Turn limit not reached", winner := none }
  | none => { result := .IN_PROGRESS, reason := "Turn limit not reached", winner := none }

/-- VictoryConditions.check_combat_stalemate
(src/env/mechanics/victory.py lines 346-370). -/
def VictoryConditions.check_combat_stalemate (cfg : VictoryConfig)
    (turnsWithoutShooting : ℤ) : VictoryResult :=
  if cfg.max_stalemate_turns ≤ turnsWithoutShooting then
    { result := .DRAW,
      reason := "Stalemate - No missiles fired for " ++ toString cfg.max_stalemate_turns ++ " turns - DRAW",
      winner := none }
  else
    { result := .IN_PROGRESS,
      reason := "Combat active (" ++ toString turnsWithoutShooting ++ "/" ++ toString cfg.max_stalemate_turns ++ " idle turns)",
      winner := none }

/-- VictoryConditions.check_movement_stagnation
(src/env/mechanics/victory.py lines 372-396). -/
def VictoryConditions.check_movement_stagnation (cfg : VictoryConfig)
    (turnsWithoutMovement : ℤ) : VictoryResult :=
  if cfg.max_no_move_turns ≤ turnsWithoutMovement then
    { result := .DRAW,
      reason := "Stagnation - No movement for " ++ toString cfg.max_no_move_turns ++ " turns - DRAW",
      winner := none }
  else
    { result := .IN_PROGRESS,
      reason := "Movement active (" ++ toString turnsWithoutMovement ++ "/" ++ toString cfg.max_no_move_turns ++ " idle turns)",
      winner := none }

/-- The IN_PROGRESS result returned when no condition fired. -/
def VictoryResult.ongoing : VictoryResult :=
  { result := .IN_PROGRESS, reason := "Game ongoing", winner := none }

/-- VictoryConditions.check_all (src/env/mechanics/victory.py lines
110-164): the chained checks exactly as written — AWACS destruction,
enemy elimination, missile exhaustion (only when configured), turn cap,
combat stalemate, movement stagnation — returning at the first
game-over result. -/
def VictoryConditions.check_all (cfg : VictoryConfig) (w : WorldState) : VictoryResult :=
  let r1 := VictoryConditions.check_awacs_destruction w
  if r1.is_game_over then r1
  else
    let r2 := VictoryConditions.check_all_enemies_destroyed w
    if r2.is_game_over then r2
    else
      let r3 := VictoryConditions.check_missile_exhaustion w
      if cfg.check_missile_exhaustion ∧ r3.is_game_over then r3
      else
        let r4 := VictoryConditions.check_turn_limit cfg w.turn
        if r4.is_game_over then r4
        else
          let r5 := VictoryConditions.check_combat_stalemate cfg w.turns_without_shooting
          if r5.is_game_over then r5
          else
            let r6 := VictoryConditions.check_movement_stagnation cfg w.turns_without_movement
            if r6.is_game_over then r6
            else VictoryResult.ongoing

/-- The ordered battery of victory checks as the spec describes it
(spec section 4.6): the six conditions in priority order, the optional
ones present only when configured. -/
def orderedVictoryChecks (cfg : VictoryConfig) (w : WorldState) : List VictoryResult :=
  [VictoryConditions.check_awacs_destruction w,
   VictoryConditions.check_all_enemies_destroyed w]
  ++ (if cfg.check_missile_exhaustion then [VictoryConditions.check_missile_exhaustion w] else [])
  ++ [VictoryConditions.check_turn_limit cfg w.turn,
      VictoryConditions.check_combat_stalemate cfg w.turns_without_shooting,
      VictoryConditions.check_movement_stagnation cfg w.turns_without_movement]

/-- Spec-side aggregate: the first terminal result of an ordered battery
of checks (short-circuit at the first game-over result). -/
def firstTerminal : List VictoryResult → VictoryResult
  | [] => VictoryResult.ongoing
  | r :: rs => if r.is_game_over then r else firstTerminal rs

/-- World._compute_entity_observations
(src/old_approach_files_for_reference/wargame_2d/env.py lines 357-391),
which is also the per-entity scan of the missing
src/env/mechanics/sensors.py as the spec section 4.3 describes it:
a dead or radar-less observer sees nothing; otherwise every other alive
entity within the observer's active radar range is observed, except
toggled-off SAMs, which are never observable; an enemy decoy is
perceived with kind "aircraft". -/
def computeEntityObservations (entities : List Entity) (e : Entity) : List Observation :=
  if ¬ e.alive then []
  else
    let activeRadar := e.get_active_radar_range
    if activeRadar ≤ 0 then []
    else
      (entities.filter (fun other =>
        other.alive ∧ other.id ≠ e.id ∧ ¬ (other.isSAM ∧ ¬ other.radarOn)
          ∧ distLe e.pos other.pos activeRadar)).map
        (fun other =>
          let observedKind := if other.kind = .decoy ∧ other.team ≠ e.team then .aircraft else other.kind
          { entity_id := other.id, kind := observedKind, team := other.team,
            position := other.pos, dSq := distSq e.pos other.pos,
            seen_by := [e.id] })

/-- CommandCenter.reset_step / TeamView.reset at the start of a sensor
refresh: observations and visibility cleared, friendly ids set to the
team's living roster, firing history kept. -/
def TeamView.reset_step (v : TeamView) (entities : List Entity) : TeamView :=
  { v with observations := [],
           friendly_ids := ((entities.filter (fun e => e.team = v.team ∧ e.alive)).map (·.id)),
           visible_enemy_ids := [] }

/-- Modelled from the spec: `SensorSystem.refresh_all_observations` of
the missing src/env/mechanics/sensors.py, following spec section 4.3 and
the present reference implementation `World.refresh_observations`
(src/old_approach_files_for_reference/wargame_2d/env.py lines 393-404):
reset both views; ingest every entity's computed observations into its
own team's view; then ingest a distance-0 self-observation (true kind)
for every living entity into its team's view so a team's own living
roster is always represented. -/
def SensorSystem.refresh_all_observations (w : WorldState) : WorldState :=
  let w1 := (w.set_team_view .BLUE (w.blueView.reset_step w.entities))
  let w2 := (w1.set_team_view .RED (w1.redView.reset_step w1.entities))
  let w3 := w2.entities.foldl
    (fun acc e =>
      acc.set_team_view e.team
        ((acc.get_team_view e.team).add_observations (computeEntityObservations acc.entities e)))
    w2
  w3.entities.foldl
    (fun acc e =>
      if e.alive then
        acc.set_team_view e.team
          ((acc.get_team_view e.team).add_observation
            { entity_id := e.id, kind := e.kind, team := e.team,
              position := e.pos, dSq := 0, seen_by := [e.id] })
      else acc)
    w3

/-- SAM.get_allowed_actions (src/env/entities/sam.py lines 90-130):
nothing when dead; otherwise WAIT and TOGGLE(¬on) when they validate,
and — only when the radar is ON, the cooldown is 0 and missiles remain —
one SHOOT per visible enemy id that is alive and validates. -/
def SAM.get_allowed_actions (w : WorldState) (e : Entity) : List Action :=
  if ¬ e.alive then []
  else
    let waitPart := if (validate_action_in_world w e .wait).valid then [Action.wait] else []
    let togglePart :=
      if (validate_action_in_world w e (.toggle (! e.radarOn))).valid then
        [Action.toggle (! e.radarOn)] else []
    let shootPart :=
      if e.radarOn ∧ e.cooldown = 0 ∧ 0 < e.missiles then
        ((w.get_team_view e.team).visible_enemy_ids.filter (fun targetId =>
          (match w.get_entity targetId with
           | some t => t.alive
           | none => false)
          && (validate_action_in_world w e (.shoot targetId)).valid)).map Action.shoot
      else []
    waitPart ++ togglePart ++ shootPart

/-- World.hit_probability
(src/old_approach_files_for_reference/wargame_2d/env.py lines 406-414),
with the per-shot parameters passed explicitly as the Shooter does:
0 when the maximum range is non-positive, else the base probability
scaled by the clamped linear fall-off and floored at the minimum. -/
def hit_probability (distance max_range base min_p : ℚ) : ℚ :=
  if max_range ≤ 0 then 0
  else
    let frac := max 0 (min 1 (1 - distance / max_range))
    max min_p (base * frac)

/-- Record of one SHOOT resolution in the combat phase. -/
structure ShotResult where
  shooter_id : ℕ
  target_id : ℕ
  fired : Bool
  hit : Bool
  log : String
deriving DecidableEq, Repr

/-- Modelled from the spec: `CombatResolver.resolve_combat` of the
missing src/env/mechanics/combat.py, following spec section 4.5.
SHOOT actions of living entities are processed (validation through the
present `validate_action_in_world`); a valid shot consumes a missile,
one draw from the world-owned RNG decides hit or miss, a hit adds the
target to the pending-kill set (kills are deferred), a firing SAM starts
its cooldown regardless of the outcome, and the opposing view's sticky
has-fired flag is set; after all shots, pending kills are applied
atomically and cleared; `turns_without_shooting` resets to 0 when any
shot was attempted this turn, else increments.  The spec's numeric hit
probability (`hit_probability`, irrational-valued at general positions)
only biases the draw; the draw is modelled as one RNG step whose Boolean
outcome stands for `rng.random() <= p` — no stated property depends on
the bias. -/
def CombatResolver.resolve_shot (acts : Actions)
    (p : WorldState × List ShotResult) (idx : ℕ) : WorldState × List ShotResult :=
  match p.1.entities.get? idx with
  | none => p
  | some e =>
    match acts.get e.id with
    | some (.shoot targetId) =>
      let validation := validate_action_in_world p.1 e (.shoot targetId)
      if ¬ validation.valid then
        (p.1, p.2 ++ [{ shooter_id := e.id, target_id := targetId,
                        fired := false, hit := false, log := validation.message }])
      else
        let draw := rngNext p.1.rng
        let hit := draw.1 % 2 = 0
        let e' := { e with missiles := e.missiles - 1,
                           lastAction := some (.shoot targetId),
                           cooldown := if e.isSAM then e.cooldownSteps else e.cooldown }
        let w1 := { p.1 with entities := p.1.entities.set idx e', rng := draw.2 }
        let w2 := w1.set_team_view e.team.opponent
          ((w1.get_team_view e.team.opponent).record_enemy_fired e.id)
        let w3 := if hit then w2.mark_for_kill targetId else w2
        (w3, p.2 ++ [{ shooter_id := e.id, target_id := targetId,
                       fired := true, hit := hit, log := e.label ++ " fires" }])
    | _ => p

/-- Modelled from the spec (section 4.5): the whole combat phase — the
per-shooter body above folded over the queued shooters, then the deferred
kills applied atomically and the no-shooting counter updated. -/
def CombatResolver.resolve_combat (w : WorldState) (acts : Actions) :
    WorldState × List ShotResult :=
  let shooters := (List.range w.entities.length).filter (fun i =>
    match w.entities.get? i with
    | some e => e.alive ∧ (acts.get e.id).any Action.isShoot
    | none => false)
  let attempted := ¬ shooters.isEmpty
  let afterShots := shooters.foldl (CombatResolver.resolve_shot acts)
    (w, ([] : List ShotResult))
  let wk := afterShots.1
  let wDead := { wk with
    entities := wk.entities.map (fun (e : Entity) =>
      if wk.pending_kills.contains e.id then { e with alive := false } else e),
    pending_kills := [] }
  let wCnt :=
    if attempted then { wDead with turns_without_shooting := 0 }
    else { wDead with turns_without_shooting := wDead.turns_without_shooting + 1 }
  (wCnt, afterShots.2)

/-- GridCombatEnv._housekeeping (src/env/environment.py lines 284-289):
tick the cooldown of every living SAM. -/
def GridCombatEnv.housekeeping (w : WorldState) : WorldState :=
  { w with entities := w.entities.map (fun e =>
      if e.alive ∧ e.isSAM then e.tick_cooldown else e) }

/-- GridCombatEnv.step (src/env/environment.py lines 197-262), embedded
in the EXACT order the code executes: turn increment; housekeeping;
movement/toggle/wait resolution; combat resolution; sensor refresh;
victory check; game-over bookkeeping.  Returns the new world and the
done flag.  Note the code calls `resolve_combat` BEFORE
`refresh_all_observations`. -/
def GridCombatEnv.step (cfg : VictoryConfig) (w : WorldState) (acts : Actions) :
    WorldState × Bool :=
  let w1 := { w with turn := w.turn + 1 }
  let w2 := GridCombatEnv.housekeeping w1
  let w3 := (MovementResolver.resolve_actions w2 acts true).1
  let w4 := (CombatResolver.resolve_combat w3 acts).1
  let w5 := SensorSystem.refresh_all_observations w4
  let vr := VictoryConditions.check_all cfg w5
  let w6 :=
    if vr.is_game_over then
      { w5 with game_over := true, winner := vr.winner, game_over_reason := vr.reason }
    else w5
  (w6, vr.is_game_over)

/-- The per-turn pipeline in the order the claim (and the docstring of
`step()`, and spec section 4.7) states it: housekeeping; movement;
RE-SENSE; combat (whose SHOOT legality sees the re-sensed visibility);
victory check.  Identical components to `GridCombatEnv.step`, differing
only in where the sensor refresh is placed.  Used to compare the code's
order against the claimed order. -/
def stepClaimedOrder (cfg : VictoryConfig) (w : WorldState) (acts : Actions) :
    WorldState × Bool :=
  let w1 := { w with turn := w.turn + 1 }
  let w2 := GridCombatEnv.housekeeping w1
  let w3 := (MovementResolver.resolve_actions w2 acts true).1
  let w4 := SensorSystem.refresh_all_observations w3
  let w5 := (CombatResolver.resolve_combat w4 acts).1
  let vr := VictoryConditions.check_all cfg w5
  let w6 :=
    if vr.is_game_over then
      { w5 with game_over := true, winner := vr.winner, game_over_reason := vr.reason }
    else w5
  (w6, vr.is_game_over)

/-- Outcome of one reference-implementation SHOOT
(src/old_approach_files_for_reference/wargame_2d/env.py,
Shooter.perform / SAM.perform). -/
structure OldShotOutcome where
  missilesAfter : ℤ
  cooldownAfter : ℤ
  fired : Bool
  hit : Bool
  log : String
deriving DecidableEq, Repr

/-- A no-op outcome (validation failed; nothing fired). -/
def OldShotOutcome.noFire (shooter : Entity) (log : String) : OldShotOutcome :=
  { missilesAfter := shooter.missiles, cooldownAfter := shooter.cooldown,
    fired := false, hit := false, log := log }

/-- Shooter.perform for a SHOOT action
(src/old_approach_files_for_reference/wargame_2d/env.py lines 154-183).
`target` is `world.entities_by_id.get(target_id)`; `canTarget` is
`world.command_center(self.team).can_target(target_id)`; `dist` is the
exact value `world.distance(self.pos, tgt.pos)` returns.  `globalDraw`
is the value returned by `random.random()` at line 176 — a draw from the
MODULE-GLOBAL random generator, which is an input from outside the
world state and is NOT derived from the world's seeded `_rng`. -/
def Shooter.performShoot (shooter : Entity) (target : Option Entity)
    (canTarget : Bool) (dist globalDraw : ℚ) : OldShotOutcome :=
  if shooter.missiles ≤ 0 then .noFire shooter (shooter.label ++ " has no missiles.")
  else
    match target with
    | none => .noFire shooter (shooter.label ++ " cannot shoot: bad target.")
    | some tgt =>
      if ¬ tgt.alive then .noFire shooter (shooter.label ++ " cannot shoot: bad target.")
      else if ¬ canTarget then .noFire shooter (shooter.label ++ " cannot shoot: target not observed.")
      else if shooter.missileMaxRange < dist then .noFire shooter (shooter.label ++ " target out of range.")
      else
        let p := hit_probability dist shooter.missileMaxRange shooter.baseHitProb shooter.minHitProb
        let shot := globalDraw ≤ p
        { missilesAfter := shooter.missiles - 1, cooldownAfter := shooter.cooldown,
          fired := true, hit := shot,
          log := shooter.label ++ " fires at " ++ tgt.label }

/-- SAM.perform for a SHOOT action
(src/old_approach_files_for_reference/wargame_2d/env.py lines 240-248):
refuse while OFF or cooling down; otherwise run the Shooter shot, and if
it fired (the log says "fires", for a HIT and for a MISS alike) start
the cooldown. -/
def OldSAM.performShoot (sam : Entity) (target : Option Entity)
    (canTarget : Bool) (dist globalDraw : ℚ) : OldShotOutcome :=
  if ¬ sam.radarOn then .noFire sam (sam.label ++ " is OFF.")
  else if 0 < sam.cooldown then .noFire sam (sam.label ++ " cooling down.")
  else
    let sub := Shooter.performShoot sam target canTarget dist globalDraw
    if sub.fired then { sub with cooldownAfter := sam.cooldownSteps } else sub

/-- Serialized form of one entity.  Modelled from the spec where the
base class is missing: `Entity.to_dict` of the absent
src/env/entities/base.py supplies the base fields (id, team name, pos,
kind value, name, alive flag, radar_range); the SAM override IS present
(src/env/entities/sam.py lines 178-191) and adds missiles,
missile_max_range, base_hit_prob, min_hit_prob, on, cooldown_steps and
_cooldown; the absent Aircraft override adds the four shooter stats of
the Aircraft dataclass.  Kind-specific keys a kind's dict omits are
`none`.  (`on` is a reserved word in Lean; the field is `onFlag`.) -/
structure EntityDict where
  id : ℕ
  team : String
  pos : ℤ × ℤ
  kind : String
  name : String
  alive : Bool
  radar_range : ℚ
  missiles : Option ℤ
  missile_max_range : Option ℚ
  base_hit_prob : Option ℚ
  min_hit_prob : Option ℚ
  onFlag : Option Bool
  cooldown_steps : Option ℤ
  cooldown : Option ℤ
deriving DecidableEq, Repr

/-- Entity.to_dict: base fields for every kind, shooter stats for
aircraft, the full SAM block for SAMs. -/
def Entity.to_dict (e : Entity) : EntityDict :=
  let base : EntityDict :=
    { id := e.id, team := e.team.name, pos := e.pos, kind := e.kind.value,
      name := e.name, alive := e.alive, radar_range := e.radarRange,
      missiles := none, missile_max_range := none, base_hit_prob := none,
      min_hit_prob := none, onFlag := none, cooldown_steps := none,
      cooldown := none }
  match e.kind with
  | .sam =>
    { base with missiles := some e.missiles,
                missile_max_range := some e.missileMaxRange,
                base_hit_prob := some e.baseHitProb,
                min_hit_prob := some e.minHitProb,
                onFlag := some e.radarOn,
                cooldown_steps := some e.cooldownSteps,
                cooldown := some e.cooldown }
  | .aircraft =>
    { base with missiles := some e.missiles,
                missile_max_range := some e.missileMaxRange,
                base_hit_prob := some e.baseHitProb,
                min_hit_prob := some e.minHitProb }
  | _ => base

/-- Entity.from_dict: dispatch on the serialized kind to the matching
`_from_dict_impl` (the SAM one is present, src/env/entities/sam.py lines
193-210; each impl rebuilds from the kind's constructor — a Decoy's
radar range is therefore the constructor's fixed 0, not read back), then
restore the base id and alive flag.  Unknown kinds and unparsable
team names raise (`none`). -/
def Entity.from_dict (d : EntityDict) : Option Entity :=
  match Team.ofName d.team with
  | none => none
  | some t =>
    match d.kind with
    | "awacs" =>
      some { mkAWACS d.id t d.pos d.name d.radar_range with alive := d.alive }
    | "decoy" =>
      some { mkDecoy d.id t d.pos d.name with alive := d.alive }
    | "aircraft" =>
      match d.missiles, d.missile_max_range, d.base_hit_prob, d.min_hit_prob with
      | some ms, some mmr, some bhp, some mhp =>
        some { mkAircraft d.id t d.pos d.name d.radar_range ms mmr bhp mhp with alive := d.alive }
      | _, _, _, _ => none
    | "sam" =>
      match d.missiles, d.missile_max_range, d.base_hit_prob, d.min_hit_prob,
            d.onFlag, d.cooldown_steps, d.cooldown with
      | some ms, some mmr, some bhp, some mhp, some onf, some cds, some cd =>
        some { mkSAM d.id t d.pos d.name d.radar_range ms mmr bhp mhp cds onf with
               alive := d.alive, cooldown := cd }
      | _, _, _, _, _, _, _ => none
    | _ => none

/-- Serialized form of a TeamView (src/env/world/team_view.py to_dict):
only the team name and the persistent firing history.  JSON keys are
`str(entity_id)`; Python's str/int pair is a bijection on canonical
decimal numerals, so the embedding keeps the numeric key. -/
structure TeamViewDict where
  team : String
  enemy_firing_history : List (ℕ × Bool)
deriving DecidableEq, Repr

/-- TeamView.to_dict. -/
def TeamView.to_dict (v : TeamView) : TeamViewDict :=
  { team := v.team.name, enemy_firing_history := v.enemy_firing_history }

/-- TeamView.from_dict: fresh view for the named team with the firing
history restored (observations are derived state, regenerated by the
sensor refresh). -/
def TeamView.from_dict (d : TeamViewDict) : Option TeamView :=
  match Team.ofName d.team with
  | none => none
  | some t => some { TeamView.init t with enemy_firing_history := d.enemy_firing_history }

/-- Serialized form of a WorldState (src/env/world/world.py lines
202-226).  The `team_views` JSON object is built from the `_team_views`
dict, whose insertion order is fixed (BLUE then RED) by `__init__`. -/
structure WorldDict where
  grid_width : ℤ
  grid_height : ℤ
  entities : List EntityDict
  blue_view : TeamViewDict
  red_view : TeamViewDict
  turn : ℤ
  game_over : Bool
  winner : Option String
  game_over_reason : String
  turns_without_shooting : ℤ
  turns_without_movement : ℤ
  rng_state : RngState
deriving DecidableEq, Repr

/-- WorldState.to_dict (src/env/world/world.py lines 202-226). -/
def WorldState.to_dict (w : WorldState) : WorldDict :=
  { grid_width := w.grid.width, grid_height := w.grid.height,
    entities := w.entities.map Entity.to_dict,
    blue_view := w.blueView.to_dict, red_view := w.redView.to_dict,
    turn := w.turn, game_over := w.game_over,
    winner := w.winner.map Team.name,
    game_over_reason := w.game_over_reason,
    turns_without_shooting := w.turns_without_shooting,
    turns_without_movement := w.turns_without_movement,
    rng_state := w.rng }

/-- WorldState.from_dict (src/env/world/world.py lines 228-280): build a
fresh world over the serialized grid (the Grid constructor raises on
non-positive dimensions), restore counters and flags, restore the RNG
state (`rng.setstate`), rebuild every entity through `Entity.from_dict`
(bypassing placement validation), and restore the team views into the
slots named by their serialized team. -/
def WorldState.from_dict (d : WorldDict) : Option WorldState :=
  if d.grid_width ≤ 0 ∨ d.grid_height ≤ 0 then none
  else
    let winnerParsed : Option (Option Team) :=
      match d.winner with
      | none => some none
      | some s => (Team.ofName s).map some
    match winnerParsed with
    | none => none
    | some wnr =>
      match d.entities.mapM Entity.from_dict with
      | none => none
      | some es =>
        match TeamView.from_dict d.blue_view, TeamView.from_dict d.red_view with
        | some bv, some rv =>
          let base := WorldState.init d.grid_width d.grid_height d.rng_state
          let w1 := { base with
            turn := d.turn, game_over := d.game_over, winner := wnr,
            game_over_reason := d.game_over_reason,
            turns_without_shooting := d.turns_without_shooting,
            turns_without_movement := d.turns_without_movement,
            entities := es }
          some ((w1.set_team_view bv.team bv).set_team_view rv.team rv)
        | _, _ => none

/-- The rational 4/5 as an explicit reduced fraction (kernel-friendly:
no normalization needed to project its fields). -/
def p08 : ℚ := ⟨4, 5, by norm_num, by norm_num⟩

/-- The rational 1/10 as an explicit reduced fraction. -/
def p01 : ℚ := ⟨1, 10, by norm_num, by norm_num⟩

/-- Scenario for the turn-pipeline ordering: a BLUE SAM at the origin,
radar ON with range 3, cooldown 0, 2 missiles, missile range 5. -/
def pipeSam : Entity := mkSAM 1 .BLUE (0, 0) "SAM" 3 2 5 p08 p01 2 true

/-- A RED aircraft at (0, 4): outside the SAM's radar before moving,
inside it after one step DOWN. -/
def pipeAir : Entity := mkAircraft 2 .RED (0, 4) "Fighter" 5 2 4 p08 p01

/-- The pipeline-ordering world after the reset-time sensor refresh:
the BLUE view does not contain the aircraft (distance 4 > radar 3). -/
def pipeWorld : WorldState :=
  SensorSystem.refresh_all_observations
    { WorldState.init 10 10 7 with entities := [pipeSam, pipeAir] }

/-- A configuration with no optional terminal conditions in reach. -/
def stdCfg : VictoryConfig :=
  { max_stalemate_turns := 60, max_no_move_turns := 15, max_turns := none,
    check_missile_exhaustion := false }

/-- The turn's action map: the aircraft moves DOWN into the SAM's radar
ring; the SAM shoots the aircraft. -/
def pipeActs : Actions := [(2, .move .DOWN), (1, .shoot 2)]

/-- The BLUE aircraft of the determinism scenario. -/
def detShooter : Entity := mkAircraft 1 .BLUE (0, 0) "F" 5 2 4 p08 p01

/-- Its RED target one cell away. -/
def detTarget : Entity := mkAircraft 2 .RED (0, 1) "G" 5 2 4 p08 p01

/-- Victory-priority corner world: the BLUE side is fully eliminated
(its one aircraft is dead), the RED side never lost a unit other than
its AWACS, which is dead, and a RED aircraft survives. -/
def vicCxWorld : WorldState :=
  { WorldState.init 5 5 0 with entities :=
      [{ mkAircraft 1 .BLUE (0, 0) "B" 5 2 4 p08 p01 with alive := false },
       { mkAWACS 2 .RED (1, 1) "W" 9 with alive := false },
       mkAircraft 3 .RED (2, 2) "R" 5 2 4 p08 p01] }

/-- A configuration whose combat-stalemate threshold is already met. -/
def vicCxCfg : VictoryConfig :=
  { max_stalemate_turns := 0, max_no_move_turns := 15, max_turns := none,
    check_missile_exhaustion := false }

/-- A one-entity world on a 5x5 grid, everything in bounds and alive. -/
def oobWorld : WorldState :=
  { WorldState.init 5 5 3 with
    entities := [mkAircraft 1 .BLUE (0, 0) "F" 5 2 4 p08 p01] }

/-- Scenario for SAM cooldown: a RED SAM on, cooldown 0, firing at an
adjacent BLUE aircraft. -/
def cdSam : Entity := mkSAM 5 .RED (0, 0) "S" 6 4 6 p08 p01 5 true

/-- The SHOOT target of the cooldown scenario. -/
def cdTgt : Entity := mkAircraft 6 .BLUE (0, 1) "T" 5 2 4 p08 p01

/-- A SAM mid-cooldown, for the allowed-actions conjunct. -/
def coolSam : Entity :=
  { mkSAM 7 .BLUE (2, 2) "C" 6 4 6 p08 p01 5 true with cooldown := 2 }

/-- World holding the mid-cooldown SAM. -/
def coolWorld : WorldState :=
  { WorldState.init 5 5 0 with entities := [coolSam] }

/-- World for the C10 witness: a living aircraft at (0, 1) below a dead
one at (0, 2). -/
def deadCellWorld : WorldState :=
  { WorldState.init 5 5 0 with entities :=
      [mkAircraft 1 .BLUE (0, 1) "M" 5 2 4 p08 p01,
       { mkAircraft 2 .RED (0, 2) "X" 5 2 4 p08 p01 with alive := false }] }

/-- The entity placed onto the dead aircraft's cell in the C10 witness. -/
def deadCellNewcomer : Entity := mkAircraft 3 .BLUE (0, 2) "N" 5 2 4 p08 p01

/-- Two observations agree on the identifying core (entity id, perceived
kind, team); merging `seen_by` sets preserves this core. -/
def ObsCore (obs o : Observation) : Prop :=
  obs.entity_id = o.entity_id ∧ obs.kind = o.kind ∧ obs.team = o.team

/-- The self-observation ingested for a living entity in the second
refresh pass. -/
def selfObs (e : Entity) : Observation :=
  { entity_id := e.id, kind := e.kind, team := e.team, position := e.pos,
    dSq := 0, seen_by := [e.id] }

/-- World for the C7 witness after its sensor refresh: a BLUE decoy, a
RED aircraft observing it, a BLUE aircraft observing it. -/
def decoyWorld : WorldState :=
  SensorSystem.refresh_all_observations
    { WorldState.init 10 10 0 with entities :=
        [mkDecoy 1 .BLUE (0, 0) "D",
         mkAircraft 2 .RED (0, 1) "R" 5 2 4 p08 p01,
         mkAircraft 3 .BLUE (1, 0) "B" 5 2 4 p08 p01] }

/-- The RED view's observation of the BLUE decoy. -/
def decoyObsRed : Observation :=
  { entity_id := 1, kind := .aircraft, team := .BLUE, position := (0, 0),
    dSq := 1, seen_by := [2] }

/-- The BLUE view's observation of its own decoy. -/
def decoyObsBlue : Observation :=
  { entity_id := 1, kind := .decoy, team := .BLUE, position := (0, 0),
    dSq := 1, seen_by := [3, 1] }

/-- No two living entries of the entity list (as separate list entries)
share a position. -/
def PosDistinct (l : List Entity) : Prop :=
  ∀ (i j : ℕ) (e f : Entity), i ≠ j → l.get? i = some e → l.get? j = some f →
    e.alive = true → f.alive = true → e.pos ≠ f.pos

/-- Every living entry's position is inside the grid. -/
def InBoundsAll (g : Grid) (l : List Entity) : Prop :=
  ∀ e ∈ l, e.alive = true → g.in_bounds e.pos = true

/-- Destination-in-bounds discipline for the MOVE submitted for the
entity at index `i` (vacuous when its action is not a MOVE). -/
def DestOk (w : WorldState) (acts : Actions) (i : ℕ) : Prop :=
  ∀ e dir, w.entities.get? i = some e → Actions.get acts e.id = some (.move dir) →
    w.grid.in_bounds (e.pos.1 + dir.delta.1, e.pos.2 + dir.delta.2) = true

/-- A compact world exercising every deserializable kind, for the C6
witness. -/
def c6World : WorldState :=
  { WorldState.init 5 5 3 with
    entities := [mkAWACS 1 .BLUE (0, 0) "Eye" 2,
                 mkAircraft 2 .BLUE (1, 1) "Jet" 3 2 2 p08 p01,
                 mkSAM 3 .RED (3, 3) "Site" 2 1 2 p08 p01 1 true,
                 mkDecoy 4 .RED (4, 4) "Ghost"],
    turn := 7, turns_without_shooting := 2, turns_without_movement := 1 }

/-! Theorems.  One theorem per claim of the specification, with closed
witnesses and counterexamples where needed. -/

/-- C5: the hit-probability function equals
`max(min_hit_prob, base_hit_prob * clamp(1 − distance/max_range, 0, 1))`;
for distances in [0, max_range] with max_range > 0 it is bounded between
the kind-specific minimum and base probabilities, it is non-increasing
in the distance, it is non-zero at max_range, and it does not exceed the
base at distance 0.  The probability parameters satisfy the kind-specific
domain 0 < min_hit_prob ≤ base_hit_prob. -/
theorem hit_probability_bounds (d R pb pm : ℚ)
    (hR : 0 < R) (hd0 : 0 ≤ d) (hdR : d ≤ R) (hm : 0 < pm) (hmb : pm ≤ pb) :
    hit_probability d R pb pm = max pm (pb * max 0 (min 1 (1 - d / R)))
    ∧ pm ≤ hit_probability d R pb pm
    ∧ hit_probability d R pb pm ≤ pb
    ∧ (∀ d1 d2 : ℚ, d1 ≤ d2 → hit_probability d2 R pb pm ≤ hit_probability d1 R pb pm)
    ∧ hit_probability R R pb pm ≠ 0
    ∧ hit_probability 0 R pb pm ≤ pb := by
  have hRle : ¬ R ≤ 0 := not_le.mpr hR
  have hpb : 0 ≤ pb := le_trans hm.le hmb
  have hfrac_le_one : ∀ x : ℚ, max 0 (min 1 (1 - x / R)) ≤ 1 := by
    intro x
    exact max_le (by norm_num) (min_le_left _ _)
  have hfrac_nonneg : ∀ x : ℚ, 0 ≤ max 0 (min 1 (1 - x / R)) := fun x => le_max_left _ _
  have hub : ∀ x : ℚ, hit_probability x R pb pm ≤ pb := by
    intro x
    simp only [hit_probability, hRle, if_false]
    refine max_le hmb ?_
    calc pb * max 0 (min 1 (1 - x / R)) ≤ pb * 1 :=
          mul_le_mul_of_nonneg_left (hfrac_le_one x) hpb
      _ = pb := mul_one pb
  have hmono : ∀ d1 d2 : ℚ, d1 ≤ d2 →
      hit_probability d2 R pb pm ≤ hit_probability d1 R pb pm := by
    intro d1 d2 h12
    simp only [hit_probability, hRle, if_false]
    refine max_le_max le_rfl (mul_le_mul_of_nonneg_left ?_ hpb)
    refine max_le_max le_rfl (min_le_min le_rfl ?_)
    have : d1 / R ≤ d2 / R := (div_le_div_iff_of_pos_right hR).mpr h12
    linarith
  refine ⟨by simp [hit_probability, hRle], ?_, hub d, hmono, ?_, hub 0⟩
  · simp only [hit_probability, hRle, if_false]
    exact le_max_left _ _
  · have : hit_probability R R pb pm = pm := by
      simp only [hit_probability, hRle, if_false]
      rw [div_self (ne_of_gt hR)]
      simp [hm.le]
    rw [this]
    exact ne_of_gt hm

/-- C1 (code bug): the claim says step() re-senses between movement and
combat, so the SHOOT legality seen by the combat phase is the visibility
recomputed after this turn's movement — exactly what `step()`'s own
docstring lists (movement, re-sense, combat).  The code instead calls
`resolve_combat` before `refresh_all_observations`
(src/env/environment.py lines 238-247).  At the concrete scenario the
aircraft moves into the SAM's radar ring, yet the code-ordered step
rejects the SAM's shot against the previous turn's visibility (missiles
stay 2 and the target's team is never recorded as fired upon), while the
pipeline in the claimed order fires it (missiles drop to 1).  Both
pipelines share every component and differ only in where the sensor
refresh sits. -/
theorem step_combat_sees_stale_visibility :
    ((GridCombatEnv.step stdCfg pipeWorld pipeActs).1.get_entity 1).map Entity.missiles = some 2
    ∧ ((stepClaimedOrder stdCfg pipeWorld pipeActs).1.get_entity 1).map Entity.missiles = some 1
    ∧ ((GridCombatEnv.step stdCfg pipeWorld pipeActs).1.get_entity 2).map Entity.pos = some (0, 3)
    ∧ distLe (0, 0) (0, 3) 3 = true := by
  decide

/-- The explicit fraction p08 is 4/5. -/
theorem p08_eq : p08 = 4/5 := by
  rw [p08, Rat.mk'_eq_divInt, Rat.divInt_eq_div]; norm_num

/-- The explicit fraction p01 is 1/10. -/
theorem p01_eq : p01 = 1/10 := by
  rw [p01, Rat.mk'_eq_divInt, Rat.divInt_eq_div]; norm_num

/-- C2 (code bug): the hit/miss draw of the reference implementation's
`Shooter.perform` is `random.random() <= p` (line 176 of
src/old_approach_files_for_reference/wargame_2d/env.py) — a draw from
the process-global random module, not from the seeded `_rng` owned by
the world.  With every world-owned input identical (same shooter, same
target, same visibility, same distance 1, hit probability 3/5), two runs
whose global generators return 1/2 and 7/10 disagree on the outcome:
the first hits and marks the target for death, the second misses.
Replays with an identical world seed are therefore not reproducible,
contradicting the single-seeded-RNG invariant. -/
theorem shot_outcome_depends_on_global_rng :
    (Shooter.performShoot detShooter (some detTarget) true 1 (1/2)).hit = true
    ∧ (Shooter.performShoot detShooter (some detTarget) true 1 (7/10)).hit = false
    ∧ (Shooter.performShoot detShooter (some detTarget) true 1 (1/2)).fired = true
    ∧ (Shooter.performShoot detShooter (some detTarget) true 1 (7/10)).fired = true := by
  refine ⟨?_, ?_, ?_, ?_⟩ <;>
    simp [Shooter.performShoot, detShooter, detTarget, mkAircraft,
      OldShotOutcome.noFire, hit_probability, p08_eq, p01_eq] <;>
    norm_num

/-- C3 counterexample: in `vicCxWorld` the team-elimination condition is
terminal with result RED_WINS and the combat-stalemate threshold holds
simultaneously, yet the aggregate check reports BLUE_WINS — the
AWACS-destruction check (priority 1) fires for RED's dead AWACS even
though RED is the side that survives elimination.  The reported outcome
is therefore not "the elimination result" (it is also not the stalemate
draw). -/
theorem check_all_not_elimination_result_cx :
    (VictoryConditions.check_all_enemies_destroyed vicCxWorld).is_game_over = true
    ∧ (VictoryConditions.check_all_enemies_destroyed vicCxWorld).result = .RED_WINS
    ∧ vicCxCfg.max_stalemate_turns ≤ vicCxWorld.turns_without_shooting
    ∧ (VictoryConditions.check_combat_stalemate vicCxCfg vicCxWorld.turns_without_shooting).is_game_over = true
    ∧ (VictoryConditions.check_all vicCxCfg vicCxWorld).result = .BLUE_WINS
    ∧ (VictoryConditions.check_all vicCxCfg vicCxWorld
        ≠ VictoryConditions.check_all_enemies_destroyed vicCxWorld) := by
  decide

/-- C3 (amended): the aggregate check equals the first terminal result
of the six checks in the fixed priority order (AWACS destruction, team
elimination, missile exhaustion when configured, turn cap, combat
stalemate, movement stagnation); consequently, whenever a
team-elimination condition and the stalemate threshold hold
simultaneously, the reported outcome is the first terminal of the
AWACS-destruction/elimination pair — an elimination-class result, never
the stalemate draw. -/
theorem check_all_priority_order (cfg : VictoryConfig) (w : WorldState) :
    VictoryConditions.check_all cfg w = firstTerminal (orderedVictoryChecks cfg w)
    ∧ ((VictoryConditions.check_all_enemies_destroyed w).is_game_over = true →
       cfg.max_stalemate_turns ≤ w.turns_without_shooting →
       VictoryConditions.check_all cfg w =
         (if (VictoryConditions.check_awacs_destruction w).is_game_over then
            VictoryConditions.check_awacs_destruction w
          else VictoryConditions.check_all_enemies_destroyed w)) := by
  constructor
  · unfold VictoryConditions.check_all orderedVictoryChecks
    cases hex : cfg.check_missile_exhaustion <;>
      simp only [hex, true_and, false_and, if_false, if_true, List.cons_append,
        List.nil_append, firstTerminal] <;> rfl
  · intro helim _
    unfold VictoryConditions.check_all
    simp only [helim, if_true]

/-- Witness for C3 at the corner world: both hypotheses hold and the
aggregate result is the AWACS-priority outcome. -/
theorem check_all_priority_order_witness :
    (VictoryConditions.check_all_enemies_destroyed vicCxWorld).is_game_over = true
    ∧ vicCxCfg.max_stalemate_turns ≤ vicCxWorld.turns_without_shooting
    ∧ VictoryConditions.check_all vicCxCfg vicCxWorld =
        (if (VictoryConditions.check_awacs_destruction vicCxWorld).is_game_over then
           VictoryConditions.check_awacs_destruction vicCxWorld
         else VictoryConditions.check_all_enemies_destroyed vicCxWorld) :=
  ⟨by decide, by decide,
   (check_all_priority_order vicCxCfg vicCxWorld).2 (by decide) (by decide)⟩

/-- C4 counterexample: `resolve_single` performs no bounds re-check
(src/env/mechanics/movement.py lines 205-207 removed it, relying on
action maps drawn from get_allowed_actions), so a submitted MOVE DOWN
from (0, 0) succeeds during step() and leaves the still-alive entity at
(0, -1), outside the grid — the in-bounds half of the claimed invariant
fails even though the pre-step world satisfied it. -/
theorem step_moves_entity_out_of_bounds :
    (∀ e ∈ oobWorld.entities, oobWorld.grid.in_bounds e.pos = true ∧ e.alive = true)
    ∧ ((GridCombatEnv.step stdCfg oobWorld [(1, .move .DOWN)]).1.get_entity 1).map
        (fun e => (e.pos, e.alive)) = some ((0, -1), true)
    ∧ oobWorld.grid.in_bounds (0, -1) = false := by
  decide

/-- C8: a SAM that fires sets its cooldown counter to cooldown_steps
whatever the draw (the reference SAM.perform starts the cooldown when
the shot log says "fires", which covers HIT and MISS alike); each
housekeeping tick decreases a positive counter by exactly one and never
drives it below 0; and a living SAM with a positive cooldown offers no
SHOOT among its allowed actions. -/
theorem sam_cooldown_discipline :
    (∀ (sam : Entity) (target : Option Entity) (canT : Bool) (dist draw : ℚ),
        (OldSAM.performShoot sam target canT dist draw).fired = true →
        (OldSAM.performShoot sam target canT dist draw).cooldownAfter = sam.cooldownSteps)
    ∧ (∀ e : Entity, 0 ≤ e.cooldown →
        (0 < e.cooldown → e.tick_cooldown.cooldown = e.cooldown - 1)
        ∧ (e.cooldown = 0 → e.tick_cooldown.cooldown = 0)
        ∧ 0 ≤ e.tick_cooldown.cooldown)
    ∧ (∀ (w : WorldState) (e : Entity), e.alive = true → 0 < e.cooldown →
        ∀ a ∈ SAM.get_allowed_actions w e, a.isShoot = false) := by
  refine ⟨?_, ?_, ?_⟩
  · intro sam target canT dist draw hf
    unfold OldSAM.performShoot at hf ⊢
    by_cases h1 : sam.radarOn
    · by_cases h2 : 0 < sam.cooldown
      · simp [h1, h2, OldShotOutcome.noFire] at hf
      · by_cases hsub : (Shooter.performShoot sam target canT dist draw).fired = true
        · simp [h1, h2, hsub]
        · simp only [h1, h2, hsub, Bool.not_true, not_false_eq_true, if_true,
            if_false, reduceIte] at hf
          exact absurd hf hsub
    · simp [h1, OldShotOutcome.noFire] at hf
  · intro e h0
    refine ⟨fun hpos => ?_, fun hz => ?_, ?_⟩
    · unfold Entity.tick_cooldown
      rw [if_pos hpos]
    · unfold Entity.tick_cooldown
      rw [if_neg (by omega)]
      exact hz
    · unfold Entity.tick_cooldown
      split_ifs with h
      · show 0 ≤ e.cooldown - 1
        omega
      · exact h0
  · intro w e halive hcd a ha
    unfold SAM.get_allowed_actions at ha
    rw [if_neg (by simp [halive])] at ha
    rw [if_neg (show ¬ (e.radarOn = true ∧ e.cooldown = 0 ∧ 0 < e.missiles) by
      rintro ⟨-, hz, -⟩
      omega)] at ha
    rw [List.append_nil] at ha
    rcases List.mem_append.mp ha with h | h
    · split_ifs at h
      · rw [List.mem_singleton] at h
        subst h
        rfl
      · simp at h
    · split_ifs at h
      · rw [List.mem_singleton] at h
        subst h
        rfl
      · simp at h

/-- Witness for C8: the concrete fired shot sets the cooldown to
cooldown_steps; a counter of 3 ticks to 2; and SHOOT at an arbitrary
target id is not among the cooling SAM's allowed actions. -/
theorem sam_cooldown_discipline_witness :
    (OldSAM.performShoot cdSam (some cdTgt) true 1 0).fired = true
    ∧ (OldSAM.performShoot cdSam (some cdTgt) true 1 0).cooldownAfter = cdSam.cooldownSteps
    ∧ ({ cdSam with cooldown := 3 } : Entity).tick_cooldown.cooldown = 3 - 1
    ∧ Action.shoot 6 ∉ SAM.get_allowed_actions coolWorld coolSam :=
  ⟨by decide,
   sam_cooldown_discipline.1 cdSam (some cdTgt) true 1 0 (by decide),
   (sam_cooldown_discipline.2.1 { cdSam with cooldown := 3 } (by decide)).1 (by decide),
   fun hmem => by
     simpa [Action.isShoot] using sam_cooldown_discipline.2.2 coolWorld coolSam
       (by decide) (by decide) (Action.shoot 6) hmem⟩

/-- C10: a position counts as occupied exactly when some LIVING entity
stands on it; a valid MOVE onto a cell holding only dead entities
succeeds; and add_entity accepts an in-bounds placement on a cell
holding only dead entities (appending the entity). -/
theorem dead_entities_do_not_occupy :
    (∀ (w : WorldState) (p : ℤ × ℤ),
        w.is_position_occupied p = true ↔ ∃ e ∈ w.entities, e.alive = true ∧ e.pos = p)
    ∧ (∀ (w : WorldState) (idx : ℕ) (e : Entity) (dir : MoveDir),
        w.entities.get? idx = some e →
        (e.validate_action (.move dir)).valid = true →
        (∀ e' ∈ w.entities,
          e'.pos = (e.pos.1 + dir.delta.1, e.pos.2 + dir.delta.2) → e'.alive = false) →
        (MovementResolver.resolve_single w idx (.move dir)).2.success = true
        ∧ ((MovementResolver.resolve_single w idx (.move dir)).1.entities.get? idx).map Entity.pos
            = some (e.pos.1 + dir.delta.1, e.pos.2 + dir.delta.2))
    ∧ (∀ (w : WorldState) (e : Entity),
        w.grid.in_bounds e.pos = true →
        (∀ e' ∈ w.entities, e'.pos = e.pos → e'.alive = false) →
        w.add_entity e = some { w with entities := w.entities ++ [e] }) := by
  have hiff : ∀ (w : WorldState) (p : ℤ × ℤ),
      w.is_position_occupied p = true ↔ ∃ e ∈ w.entities, e.alive = true ∧ e.pos = p := by
    intro w p
    simp [WorldState.is_position_occupied, List.any_eq_true]
  have hocc : ∀ (w : WorldState) (p : ℤ × ℤ),
      (∀ e' ∈ w.entities, e'.pos = p → e'.alive = false) →
      w.is_position_occupied p = false := by
    intro w p hdead
    rw [← Bool.not_eq_true, hiff]
    rintro ⟨e, he, halive, hpos⟩
    have := hdead e he hpos
    rw [this] at halive
    exact Bool.false_ne_true halive
  refine ⟨hiff, ?_, ?_⟩
  · intro w idx e dir hget hvalid hdead
    have hoccf := hocc w (e.pos.1 + dir.delta.1, e.pos.2 + dir.delta.2) hdead
    unfold MovementResolver.resolve_single
    rw [hget]
    simp only [hvalid, Bool.not_true, not_false_eq_true, false_or, Bool.true_eq_false,
      not_true_eq_false, if_false, reduceIte, hoccf]
    constructor
    · rfl
    · have hlt : idx < w.entities.length := by
        by_contra hge
        rw [List.get?_eq_none.mpr (le_of_not_lt hge)] at hget
        exact Option.noConfusion hget
      simp [List.get?_set_eq, hlt]
  · intro w e hin hdead
    unfold WorldState.add_entity
    rw [hin, hocc w e.pos hdead]
    simp

/-- Witness for C10: moving UP onto the dead aircraft's cell succeeds
and lands there, and add_entity accepts a newcomer on that cell. -/
theorem dead_entities_do_not_occupy_witness :
    ((MovementResolver.resolve_single deadCellWorld 0 (.move .UP)).2.success = true)
    ∧ deadCellWorld.add_entity deadCellNewcomer =
        some { deadCellWorld with entities := deadCellWorld.entities ++ [deadCellNewcomer] } :=
  ⟨(dead_entities_do_not_occupy.2.1 deadCellWorld 0
      (mkAircraft 1 .BLUE (0, 1) "M" 5 2 4 p08 p01) .UP (by decide) (by decide) (by decide)).1,
   dead_entities_do_not_occupy.2.2 deadCellWorld deadCellNewcomer (by decide) (by decide)⟩

theorem obsCore_rfl (o : Observation) : ObsCore o o :=
  ⟨rfl, rfl, rfl⟩

theorem obsCore_trans {a b c : Observation} (h1 : ObsCore a b) (h2 : ObsCore b c) :
    ObsCore a c :=
  ⟨h1.1.trans h2.1, h1.2.1.trans h2.2.1, h1.2.2.trans h2.2.2⟩

/-- Every observation present after `add_observation` shares its core
with a previously present observation or with the ingested one (a merge
only extends `seen_by`). -/
theorem mem_add_observation (v : TeamView) (o obs : Observation)
    (h : obs ∈ (v.add_observation o).observations) :
    ∃ o', (o' ∈ v.observations ∨ o' = o) ∧ ObsCore obs o' := by
  unfold TeamView.add_observation at h
  by_cases hc : (v.observations.any (·.entity_id = o.entity_id)) = true
  · rw [if_pos hc] at h
    simp only [List.mem_map] at h
    obtain ⟨ob, hmem, heq⟩ := h
    refine ⟨ob, Or.inl hmem, ?_⟩
    subst heq
    by_cases hid : ob.entity_id = o.entity_id <;> simp [hid, ObsCore]
  · rw [if_neg hc] at h
    rcases List.mem_append.mp h with hmem | hmem
    · exact ⟨obs, Or.inl hmem, obsCore_rfl obs⟩
    · rw [List.mem_singleton] at hmem
      exact ⟨o, Or.inr rfl, hmem ▸ obsCore_rfl o⟩

/-- Fold version of `mem_add_observation` over a whole ingested list. -/
theorem mem_add_observations (l : List Observation) :
    ∀ (v : TeamView) (obs : Observation),
    obs ∈ (v.add_observations l).observations →
    ∃ o', (o' ∈ v.observations ∨ o' ∈ l) ∧ ObsCore obs o' := by
  induction l with
  | nil =>
    intro v obs h
    exact ⟨obs, Or.inl h, obsCore_rfl obs⟩
  | cons o rest ih =>
    intro v obs h
    obtain ⟨o', ho', hcore⟩ := ih (v.add_observation o) obs h
    rcases ho' with hin | hin
    · obtain ⟨o'', ho'', hcore'⟩ := mem_add_observation v o o' hin
      rcases ho'' with h2 | h2
      · exact ⟨o'', Or.inl h2, obsCore_trans hcore hcore'⟩
      · exact ⟨o'', Or.inr (h2 ▸ List.mem_cons_self o rest), obsCore_trans hcore hcore'⟩
    · exact ⟨o', Or.inr (List.mem_cons_of_mem o hin), hcore⟩

/-- `set_team_view` leaves the entity list and the grid unchanged. -/
theorem set_team_view_entities (w : WorldState) (t : Team) (v : TeamView) :
    ((w.set_team_view t v).entities = w.entities
     ∧ (w.set_team_view t v).grid = w.grid) := by
  cases t <;> simp [WorldState.set_team_view]

/-- Reading the other team's view through `set_team_view`. -/
theorem get_set_team_view (w : WorldState) (t t' : Team) (v : TeamView) :
    (w.set_team_view t v).get_team_view t' = if t' = t then v else w.get_team_view t' := by
  cases t <;> cases t' <;> simp [WorldState.set_team_view, WorldState.get_team_view]

/-- Where an observation in a refreshed team view comes from: its core
is that of an observation computed by a same-team observer, or of a
same-team living entity's self-observation. -/
theorem refresh_observation_source (w : WorldState) (t : Team) (obs : Observation)
    (h : obs ∈ ((SensorSystem.refresh_all_observations w).get_team_view t).observations) :
    ∃ o', ObsCore obs o' ∧
      ((∃ e ∈ w.entities, e.team = t ∧ o' ∈ computeEntityObservations w.entities e)
       ∨ (∃ e ∈ w.entities, e.alive = true ∧ e.team = t ∧ o' = selfObs e)) := by
  unfold SensorSystem.refresh_all_observations at h
  dsimp only at h
  set w2 := ((w.set_team_view .BLUE (w.blueView.reset_step w.entities)).set_team_view .RED
    ((w.set_team_view .BLUE (w.blueView.reset_step w.entities)).redView.reset_step
      (w.set_team_view .BLUE (w.blueView.reset_step w.entities)).entities)) with hw2
  have hw2ent : w2.entities = w.entities := by
    rw [hw2]
    rw [(set_team_view_entities _ _ _).1, (set_team_view_entities _ _ _).1]
  have hw2obs : ∀ t', (w2.get_team_view t').observations = [] := by
    intro t'
    rw [hw2]
    cases t' <;>
      simp [WorldState.set_team_view, WorldState.get_team_view, TeamView.reset_step]
  -- a generic invariant for the two ingestion folds
  have hfold1 : ∀ (l : List Entity) (acc : WorldState),
      (∀ e ∈ l, e ∈ w.entities) →
      acc.entities = w.entities →
      (∀ obs', obs' ∈ (acc.get_team_view t).observations →
        ∃ o', ObsCore obs' o' ∧
          (∃ e ∈ w.entities, e.team = t ∧ o' ∈ computeEntityObservations w.entities e)) →
      (l.foldl (fun acc e =>
          acc.set_team_view e.team
            ((acc.get_team_view e.team).add_observations (computeEntityObservations acc.entities e)))
        acc).entities = w.entities
      ∧ ∀ obs', obs' ∈ ((l.foldl (fun acc e =>
          acc.set_team_view e.team
            ((acc.get_team_view e.team).add_observations (computeEntityObservations acc.entities e)))
        acc).get_team_view t).observations →
        ∃ o', ObsCore obs' o' ∧
          (∃ e ∈ w.entities, e.team = t ∧ o' ∈ computeEntityObservations w.entities e) := by
    intro l
    induction l with
    | nil =>
      intro acc _ hent hinv
      exact ⟨hent, hinv⟩
    | cons e rest ih =>
      intro acc hmem hent hinv
      refine ih _ (fun x hx => hmem x (List.mem_cons_of_mem e hx)) ?_ ?_
      · rw [(set_team_view_entities _ _ _).1, hent]
      · intro obs' hobs'
        rw [get_set_team_view] at hobs'
        by_cases hteam : t = e.team
        · rw [if_pos hteam] at hobs'
          obtain ⟨o', ho', hcore⟩ := mem_add_observations _ _ _ hobs'
          rcases ho' with hin | hin
          · rw [← hteam] at hin
            obtain ⟨o'', hcore', hsrc⟩ := hinv o' hin
            exact ⟨o'', obsCore_trans hcore hcore', hsrc⟩
          · rw [hent] at hin
            exact ⟨o', hcore,
              ⟨e, hmem e (List.mem_cons_self e rest), hteam.symm, hin⟩⟩
        · rw [if_neg hteam] at hobs'
          exact hinv obs' hobs'
  have hself : ∀ (l : List Entity) (acc : WorldState),
      (∀ e ∈ l, e ∈ w.entities) →
      (∀ obs', obs' ∈ (acc.get_team_view t).observations →
        ∃ o', ObsCore obs' o' ∧
          ((∃ e ∈ w.entities, e.team = t ∧ o' ∈ computeEntityObservations w.entities e)
           ∨ (∃ e ∈ w.entities, e.alive = true ∧ e.team = t ∧ o' = selfObs e))) →
      ∀ obs', obs' ∈ ((l.foldl (fun acc e =>
          if e.alive then
            acc.set_team_view e.team ((acc.get_team_view e.team).add_observation (selfObs e))
          else acc) acc).get_team_view t).observations →
        ∃ o', ObsCore obs' o' ∧
          ((∃ e ∈ w.entities, e.team = t ∧ o' ∈ computeEntityObservations w.entities e)
           ∨ (∃ e ∈ w.entities, e.alive = true ∧ e.team = t ∧ o' = selfObs e)) := by
    intro l
    induction l with
    | nil =>
      intro acc _ hinv
      exact hinv
    | cons e rest ih =>
      intro acc hmem hinv
      rw [List.foldl_cons]
      refine ih _ (fun x hx => hmem x (List.mem_cons_of_mem e hx)) ?_
      intro obs' hobs'
      by_cases halive : e.alive
      · rw [if_pos halive, get_set_team_view] at hobs'
        by_cases hteam : t = e.team
        · rw [if_pos hteam] at hobs'
          obtain ⟨o', ho', hcore⟩ := mem_add_observation _ _ _ hobs'
          rcases ho' with hin | hin
          · rw [← hteam] at hin
            obtain ⟨o'', hcore', hsrc⟩ := hinv o' hin
            exact ⟨o'', obsCore_trans hcore hcore', hsrc⟩
          · exact ⟨o', hcore,
              Or.inr ⟨e, hmem e (List.mem_cons_self e rest), halive, hteam.symm, hin⟩⟩
        · rw [if_neg hteam] at hobs'
          exact hinv obs' hobs'
      · rw [if_neg halive] at hobs'
        exact hinv obs' hobs'
  have hbase : ∀ obs', obs' ∈ (w2.get_team_view t).observations →
      ∃ o', ObsCore obs' o' ∧
        (∃ e ∈ w.entities, e.team = t ∧ o' ∈ computeEntityObservations w.entities e) := by
    intro obs' hobs'
    rw [hw2obs] at hobs'
    exact absurd hobs' (List.not_mem_nil obs')
  have h1 := hfold1 w2.entities w2 (fun x hx => hw2ent ▸ hx) hw2ent hbase
  set w3 := List.foldl (fun acc e =>
      acc.set_team_view e.team
        ((acc.get_team_view e.team).add_observations (computeEntityObservations acc.entities e)))
    w2 w2.entities with hw3
  refine hself w3.entities w3 (fun x hx => h1.1 ▸ hx) ?_ obs h
  intro obs' hobs'
  obtain ⟨o', hcore, hsrc⟩ := h1.2 obs' hobs'
  exact ⟨o', hcore, Or.inl hsrc⟩

/-- Every computed observation originates from a living listed entity
and carries its id and team; the perceived kind is "aircraft" when the
entity is an enemy decoy and the true kind otherwise. -/
theorem computeEntityObservations_spec (entities : List Entity) (e : Entity)
    (obs : Observation) (h : obs ∈ computeEntityObservations entities e) :
    ∃ other ∈ entities, other.alive = true ∧ obs.entity_id = other.id
      ∧ obs.team = other.team
      ∧ obs.kind = (if other.kind = .decoy ∧ other.team ≠ e.team then .aircraft else other.kind) := by
  unfold computeEntityObservations at h
  by_cases halive : e.alive
  case neg => simp [halive] at h
  rw [if_neg (by simpa using halive)] at h
  by_cases hradar : e.get_active_radar_range ≤ 0
  case pos => simp [hradar] at h
  rw [if_neg hradar] at h
  simp only [List.mem_map, List.mem_filter] at h
  obtain ⟨other, ⟨hmem, hprops⟩, heq⟩ := h
  have halive' : other.alive = true := by
    have := of_decide_eq_true hprops
    exact this.1
  refine ⟨other, hmem, halive', ?_, ?_, ?_⟩ <;> rw [← heq]

/-- Entities with distinct serialized ids are determined by their id. -/
theorem entity_eq_of_id_eq {l : List Entity} (h : (l.map (fun x => x.id)).Nodup)
    {a b : Entity} (ha : a ∈ l) (hb : b ∈ l) (hid : a.id = b.id) : a = b :=
  List.inj_on_of_nodup_map h ha hb hid

/-- C7: every sensor observation of a decoy perceives it as "aircraft"
when the observer is on a different team than the decoy and as "decoy"
when the observer is on the decoy's own team — both at the level of a
single observer's computed observations and at the level of a whole
refreshed team view (whose self-observations report the true kind). -/
theorem decoy_perceived_kind :
    (∀ (entities : List Entity) (e dcy : Entity) (obs : Observation),
        (entities.map (fun x => x.id)).Nodup →
        dcy ∈ entities → dcy.kind = .decoy →
        obs ∈ computeEntityObservations entities e →
        obs.entity_id = dcy.id →
        obs.kind = (if e.team = dcy.team then .decoy else .aircraft))
    ∧ (∀ (w : WorldState) (t : Team) (dcy : Entity) (obs : Observation),
        (w.entities.map (fun x => x.id)).Nodup →
        dcy ∈ w.entities → dcy.kind = .decoy →
        obs ∈ ((SensorSystem.refresh_all_observations w).get_team_view t).observations →
        obs.entity_id = dcy.id →
        obs.kind = (if t = dcy.team then .decoy else .aircraft)) := by
  have hcompute : ∀ (entities : List Entity) (e dcy : Entity) (obs : Observation),
      (entities.map (fun x => x.id)).Nodup →
      dcy ∈ entities → dcy.kind = .decoy →
      obs ∈ computeEntityObservations entities e →
      obs.entity_id = dcy.id →
      obs.kind = (if e.team = dcy.team then .decoy else .aircraft) := by
    intro entities e dcy obs hnd hdec hkind hobs hid
    obtain ⟨other, hmem, _, hid', _, hkind'⟩ := computeEntityObservations_spec entities e obs hobs
    have hoth : other = dcy := entity_eq_of_id_eq hnd hmem hdec (by rw [← hid', hid])
    rw [hkind', hoth, hkind]
    by_cases heq : e.team = dcy.team
    · simp [heq]
    · simp [heq, show dcy.team ≠ e.team from fun h => heq h.symm]
  refine ⟨hcompute, ?_⟩
  intro w t dcy obs hnd hdec hkind hobs hid
  obtain ⟨o', hcore, hsrc⟩ := refresh_observation_source w t obs hobs
  rcases hsrc with ⟨e, _, hteam, hin⟩ | ⟨e, hmem, _, hteam, hself⟩
  · rw [hcore.2.1]
    rw [← hteam]
    exact hcompute w.entities e dcy o' hnd hdec hkind hin (by rw [← hcore.1, hid])
  · have hide : e.id = dcy.id := by
      have : o'.entity_id = e.id := by rw [hself]; rfl
      rw [← this, ← hcore.1, hid]
    have : e = dcy := entity_eq_of_id_eq hnd hmem hdec hide
    subst this
    rw [hcore.2.1, hself]
    show e.kind = _
    rw [hkind, if_pos hteam.symm]

/-- Witness for C7: in the concrete refreshed world, the enemy view's
observation of the decoy has perceived kind "aircraft" and the decoy's
own team's observation has perceived kind "decoy". -/
theorem decoy_perceived_kind_witness :
    decoyObsRed.kind = (if Team.RED = Team.BLUE then EntityKind.decoy else .aircraft)
    ∧ decoyObsBlue.kind = (if Team.BLUE = Team.BLUE then EntityKind.decoy else .aircraft) :=
  ⟨decoy_perceived_kind.2 decoyWorld .RED (mkDecoy 1 .BLUE (0, 0) "D") decoyObsRed
      (by decide) (by decide) (by decide) (by decide) (by decide),
   decoy_perceived_kind.2 decoyWorld .BLUE (mkDecoy 1 .BLUE (0, 0) "D") decoyObsBlue
      (by decide) (by decide) (by decide) (by decide) (by decide)⟩

/-- Updating one entry preserves position-distinctness provided the new
value's position collides with no OTHER living entry. -/
theorem posDistinct_set (l : List Entity) (i : ℕ) (e e' : Entity)
    (hi : l.get? i = some e)
    (hnew : ∀ (j : ℕ) (f : Entity), j ≠ i → l.get? j = some f →
      f.alive = true → e'.alive = true → f.pos ≠ e'.pos)
    (hd : PosDistinct l) : PosDistinct (l.set i e') := by
  have hlen : i < l.length := by
    by_contra hge
    rw [List.get?_eq_none.mpr (le_of_not_lt hge)] at hi
    exact Option.noConfusion hi
  have hset : ∀ n, (l.set i e').get? n = if i = n then some e' else l.get? n := by
    intro n
    by_cases hin : i = n
    · subst hin
      simp [List.get?_eq_getElem?, List.getElem?_set_eq_of_lt _ hlen]
    · simp [List.get?_eq_getElem?, List.getElem?_set_ne hin, hin]
  intro a b x y hab hx hy hxa hya
  rw [hset] at hx hy
  by_cases hia : i = a <;> by_cases hib : i = b
  · exact absurd (hia.symm.trans hib) hab
  · rw [if_pos hia] at hx
    rw [if_neg hib] at hy
    cases hx
    exact fun hpp => hnew b y (fun hba => hib hba.symm) hy hya hxa hpp.symm
  · rw [if_neg hia] at hx
    rw [if_pos hib] at hy
    cases hy
    exact hnew a x (fun hai => hia hai.symm) hx hxa hya
  · rw [if_neg hia] at hx
    rw [if_neg hib] at hy
    exact hd a b x y hab hx hy hxa hya

/-- Updating one entry with a value at the same position and liveness
preserves position-distinctness. -/
theorem posDistinct_set_same (l : List Entity) (i : ℕ) (e e' : Entity)
    (hi : l.get? i = some e) (hpos : e'.pos = e.pos) (halive : e'.alive = e.alive)
    (hd : PosDistinct l) : PosDistinct (l.set i e') := by
  refine posDistinct_set l i e e' hi ?_ hd
  intro j f hji hj hf he'
  rw [hpos]
  exact hd j i f e hji hj hi hf (halive ▸ he')

/-- Setting an in-bounds (or dead) value keeps every living entry in
bounds. -/
theorem inBounds_set (g : Grid) (l : List Entity) (i : ℕ) (e' : Entity)
    (hb : e'.alive = true → g.in_bounds e'.pos = true)
    (h : InBoundsAll g l) : InBoundsAll g (l.set i e') := by
  intro x hx hxa
  rcases List.mem_or_eq_of_mem_set hx with hmem | heq
  · exact h x hmem hxa
  · subst heq
    exact hb hxa

/-- Pointwise transformations that keep positions and never revive an
entity preserve position-distinctness. -/
theorem posDistinct_map (l : List Entity) (f : Entity → Entity)
    (hpos : ∀ x, (f x).pos = x.pos) (halive : ∀ x, (f x).alive = true → x.alive = true)
    (hd : PosDistinct l) : PosDistinct (l.map f) := by
  intro a b x y hab hx hy hxa hya
  rw [List.get?_map] at hx hy
  cases hox : l.get? a with
  | none => rw [hox] at hx; exact Option.noConfusion hx
  | some xa =>
    cases hoy : l.get? b with
    | none => rw [hoy] at hy; exact Option.noConfusion hy
    | some yb =>
      rw [hox] at hx
      rw [hoy] at hy
      cases hx
      cases hy
      rw [hpos xa, hpos yb]
      exact hd a b xa yb hab hox hoy (halive xa hxa) (halive yb hya)

/-- Pointwise transformations that keep positions and never revive an
entity preserve the in-bounds invariant. -/
theorem inBounds_map (g : Grid) (l : List Entity) (f : Entity → Entity)
    (hpos : ∀ x, (f x).pos = x.pos) (halive : ∀ x, (f x).alive = true → x.alive = true)
    (h : InBoundsAll g l) : InBoundsAll g (l.map f) := by
  intro x hx hxa
  obtain ⟨y, hy, hyx⟩ := List.mem_map.mp hx
  subst hyx
  rw [hpos y]
  exact h y hy (halive y hxa)

/-- The shuffle model returns a permutation of its input. -/
theorem rngShuffleAux_perm {α : Type} [DecidableEq α] :
    ∀ (fuel : ℕ) (s : RngState) (xs : List α), (rngShuffleAux fuel s xs).1.Perm xs := by
  intro fuel
  induction fuel with
  | zero => intro s xs; exact List.Perm.refl xs
  | succ n ih =>
    intro s xs
    cases xs with
    | nil => exact List.Perm.refl []
    | cons x rest =>
      have hy : (x :: rest).get ⟨(rngNext s).1 % (x :: rest).length, Nat.mod_lt _ (by simp)⟩
          ∈ x :: rest := List.get_mem _ _ _
      exact ((ih _ _).cons _).trans (List.perm_cons_erase hy).symm

/-- `rng.shuffle` returns a permutation of its input. -/
theorem rngShuffle_perm {α : Type} [DecidableEq α] (s : RngState) (xs : List α) :
    (rngShuffle s xs).1.Perm xs :=
  rngShuffleAux_perm xs.length s xs

/-- The queued movement indices are distinct. -/
theorem movingIndices_nodup (w : WorldState) (acts : Actions) :
    (movingIndices w acts).Nodup :=
  (List.nodup_range _).filter _

/-- Outcome shape of `resolve_single`: the world is unchanged, or the
indexed entity moved onto a cell no living entity occupied; grid,
other indices, distinctness, and (when the destination is in bounds)
the in-bounds invariant are preserved. -/
theorem resolve_single_inv (w : WorldState) (idx : ℕ) (a : Action) :
    (MovementResolver.resolve_single w idx a).1.grid = w.grid
    ∧ (∀ j, j ≠ idx →
        (MovementResolver.resolve_single w idx a).1.entities.get? j = w.entities.get? j)
    ∧ (∀ j e', (MovementResolver.resolve_single w idx a).1.entities.get? j = some e' →
        ∃ e, w.entities.get? j = some e ∧ e'.id = e.id ∧ e'.alive = e.alive)
    ∧ (PosDistinct w.entities →
        PosDistinct (MovementResolver.resolve_single w idx a).1.entities)
    ∧ (InBoundsAll w.grid w.entities →
        (∀ e dir, w.entities.get? idx = some e → a = .move dir →
          w.grid.in_bounds (e.pos.1 + dir.delta.1, e.pos.2 + dir.delta.2) = true) →
        InBoundsAll w.grid (MovementResolver.resolve_single w idx a).1.entities) := by
  unfold MovementResolver.resolve_single
  cases hget : w.entities.get? idx with
  | none =>
    exact ⟨rfl, fun j _ => rfl, fun j e' h => ⟨e', h, rfl, rfl⟩, fun h => h, fun h _ => h⟩
  | some e =>
    dsimp only
    by_cases hval : (e.validate_action a).valid = true
    case neg =>
      rw [if_pos (by simpa using hval)]
      exact ⟨rfl, fun j _ => rfl, fun j e' h => ⟨e', h, rfl, rfl⟩, fun h => h, fun h _ => h⟩
    rw [if_neg (by simpa using hval)]
    cases a with
    | move dir =>
      dsimp only
      by_cases hocc : w.is_position_occupied (e.pos.1 + dir.delta.1, e.pos.2 + dir.delta.2) = true
      case pos =>
        rw [if_pos hocc]
        exact ⟨rfl, fun j _ => rfl, fun j e' h => ⟨e', h, rfl, rfl⟩, fun h => h, fun h _ => h⟩
      rw [if_neg hocc]
      have hlen : idx < w.entities.length := by
        by_contra hge
        rw [List.get?_eq_none.mpr (le_of_not_lt hge)] at hget
        exact Option.noConfusion hget
      have hnoalive : ∀ f ∈ w.entities, f.alive = true →
          f.pos ≠ (e.pos.1 + dir.delta.1, e.pos.2 + dir.delta.2) := by
        intro f hf hfa hfp
        refine hocc ?_
        unfold WorldState.is_position_occupied
        rw [List.any_eq_true]
        exact ⟨f, hf, by simp [hfa, hfp]⟩
      refine ⟨rfl, ?_, ?_, ?_, ?_⟩
      · intro j hj
        simp [List.get?_eq_getElem?, List.getElem?_set_ne (fun h => hj h.symm)]
      · intro j e' h
        by_cases hj : j = idx
        · subst hj
          rw [List.get?_eq_getElem?, List.getElem?_set_eq_of_lt _ hlen] at h
          cases h
          exact ⟨e, hget, rfl, rfl⟩
        · rw [List.get?_eq_getElem?, List.getElem?_set_ne (fun h' => hj h'.symm),
            ← List.get?_eq_getElem?] at h
          exact ⟨e', h, rfl, rfl⟩
      · intro hd
        refine posDistinct_set _ _ _ _ hget ?_ hd
        intro j f _ hj hfa _
        exact hnoalive f (List.get?_mem hj) hfa
      · intro hin hok
        refine inBounds_set _ _ _ _ ?_ hin
        intro _
        exact hok e dir rfl rfl
    | wait =>
      dsimp only
      exact ⟨rfl, fun j _ => rfl, fun j e' h => ⟨e', h, rfl, rfl⟩, fun h => h, fun h _ => h⟩
    | shoot t =>
      dsimp only
      exact ⟨rfl, fun j _ => rfl, fun j e' h => ⟨e', h, rfl, rfl⟩, fun h => h, fun h _ => h⟩
    | toggle b =>
      dsimp only
      exact ⟨rfl, fun j _ => rfl, fun j e' h => ⟨e', h, rfl, rfl⟩, fun h => h, fun h _ => h⟩

/-- When the resolved action at an index is a MOVE, it is the MOVE the
action map holds for that entity. -/
theorem actionAt_move (w : WorldState) (acts : Actions) (idx : ℕ) (e : Entity) (dir : MoveDir)
    (hget : w.entities.get? idx = some e) (ha : actionAt w acts idx = .move dir) :
    Actions.get acts e.id = some (.move dir) := by
  unfold actionAt at ha
  rw [hget] at ha
  dsimp only at ha
  cases hact : Actions.get acts e.id with
  | none =>
    rw [hact] at ha
    exact absurd ha (by simp)
  | some x =>
    rw [hact] at ha
    simp only [Option.getD_some] at ha
    rw [ha]

/-- Invariants of the sequential movement fold: grid preserved, ids and
liveness preserved pointwise, position-distinctness preserved, the
in-bounds invariant preserved when every queued index is processed once
and obeys the destination discipline, and one result recorded per
processed index. -/
theorem resolve_fold_inv (acts : Actions) :
    ∀ (order : List ℕ) (w : WorldState) (rs : List MovementResult),
    (order.foldl (fun p idx =>
        ((MovementResolver.resolve_single p.1 idx (actionAt p.1 acts idx)).1,
         p.2 ++ [(MovementResolver.resolve_single p.1 idx (actionAt p.1 acts idx)).2]))
      (w, rs)).1.grid = w.grid
    ∧ (∀ j e', ((order.foldl (fun p idx =>
        ((MovementResolver.resolve_single p.1 idx (actionAt p.1 acts idx)).1,
         p.2 ++ [(MovementResolver.resolve_single p.1 idx (actionAt p.1 acts idx)).2]))
      (w, rs)).1.entities.get? j = some e') →
        ∃ e, w.entities.get? j = some e ∧ e'.id = e.id ∧ e'.alive = e.alive)
    ∧ (PosDistinct w.entities →
        PosDistinct ((order.foldl (fun p idx =>
          ((MovementResolver.resolve_single p.1 idx (actionAt p.1 acts idx)).1,
           p.2 ++ [(MovementResolver.resolve_single p.1 idx (actionAt p.1 acts idx)).2]))
         (w, rs)).1.entities))
    ∧ (order.Nodup → InBoundsAll w.grid w.entities → (∀ i ∈ order, DestOk w acts i) →
        InBoundsAll w.grid ((order.foldl (fun p idx =>
          ((MovementResolver.resolve_single p.1 idx (actionAt p.1 acts idx)).1,
           p.2 ++ [(MovementResolver.resolve_single p.1 idx (actionAt p.1 acts idx)).2]))
         (w, rs)).1.entities))
    ∧ ((order.foldl (fun p idx =>
          ((MovementResolver.resolve_single p.1 idx (actionAt p.1 acts idx)).1,
           p.2 ++ [(MovementResolver.resolve_single p.1 idx (actionAt p.1 acts idx)).2]))
         (w, rs)).2.length = rs.length + order.length) := by
  intro order
  induction order with
  | nil =>
    intro w rs
    exact ⟨rfl, fun j e' h => ⟨e', h, rfl, rfl⟩, fun h => h, fun _ h _ => h, by simp⟩
  | cons idx rest ih =>
    intro w rs
    rw [List.foldl_cons]
    have hsingle := resolve_single_inv w idx (actionAt w acts idx)
    set w1 := (MovementResolver.resolve_single w idx (actionAt w acts idx)).1 with hw1
    have ihw := ih w1 (rs ++ [(MovementResolver.resolve_single w idx (actionAt w acts idx)).2])
    refine ⟨ihw.1.trans hsingle.1, ?_, ?_, ?_, ?_⟩
    · intro j e' h
      obtain ⟨e1, h1, hid1, hal1⟩ := ihw.2.1 j e' h
      obtain ⟨e0, h0, hid0, hal0⟩ := hsingle.2.2.1 j e1 h1
      exact ⟨e0, h0, hid1.trans hid0, hal1.trans hal0⟩
    · intro hd
      exact ihw.2.2.1 (hsingle.2.2.2.1 hd)
    · intro hnd hin hok
      have hgw1 : w1.grid = w.grid := hsingle.1
      have hin1 : InBoundsAll w.grid w1.entities := by
        refine hsingle.2.2.2.2 hin ?_
        intro e dir hget ha
        exact hok idx (List.mem_cons_self idx rest) e dir hget (actionAt_move w acts idx e dir hget ha)
      have hok1 : ∀ i ∈ rest, DestOk w1 acts i := by
        intro i hi e dir hget ha
        have hne : i ≠ idx := by
          intro hcontra
          subst hcontra
          exact (List.nodup_cons.mp hnd).1 hi
        rw [hsingle.2.1 i hne] at hget
        rw [hgw1]
        exact hok i (List.mem_cons_of_mem idx hi) e dir hget ha
      have := ihw.2.2.2.1 (List.nodup_cons.mp hnd).2 (hgw1 ▸ hin1) hok1
      rw [hgw1] at this
      exact this
    · rw [ihw.2.2.2.2]
      simp
      omega

/-- Invariants of `resolve_all`: grid, ids and liveness preserved,
position-distinctness preserved, in-bounds preserved under the
destination discipline, and one result per queued mover. -/
theorem resolve_all_inv (w : WorldState) (acts : Actions) (b : Bool) :
    (MovementResolver.resolve_all w acts b).1.grid = w.grid
    ∧ (∀ j e', (MovementResolver.resolve_all w acts b).1.entities.get? j = some e' →
        ∃ e, w.entities.get? j = some e ∧ e'.id = e.id ∧ e'.alive = e.alive)
    ∧ (PosDistinct w.entities → PosDistinct (MovementResolver.resolve_all w acts b).1.entities)
    ∧ (InBoundsAll w.grid w.entities → (∀ i, DestOk w acts i) →
        InBoundsAll w.grid (MovementResolver.resolve_all w acts b).1.entities)
    ∧ (MovementResolver.resolve_all w acts b).2.length = (movingIndices w acts).length := by
  unfold MovementResolver.resolve_all
  set shuffled := if b then rngShuffle w.rng (movingIndices w acts)
    else (movingIndices w acts, w.rng) with hsh
  set w0 : WorldState := { w with rng := shuffled.2 } with hw0
  have hperm : shuffled.1.Perm (movingIndices w acts) := by
    rw [hsh]
    cases b with
    | true => exact rngShuffle_perm _ _
    | false => exact List.Perm.refl _
  have hnd : shuffled.1.Nodup := hperm.nodup_iff.mpr (movingIndices_nodup w acts)
  have hfold := resolve_fold_inv acts shuffled.1 w0 []
  have hw0e : w0.entities = w.entities := rfl
  have hw0g : w0.grid = w.grid := rfl
  refine ⟨hfold.1, ?_, hfold.2.2.1, ?_, ?_⟩
  · intro j e' h
    exact hfold.2.1 j e' h
  · intro hin hok
    have := hfold.2.2.2.1 hnd hin (fun i _ => hok i)
    exact this
  · rw [hfold.2.2.2.2, hperm.length_eq]
    simp

/-- Single-toggle invariants: only the radar flag and last action of the
indexed entity change. -/
theorem resolve_toggle_single_inv (w : WorldState) (idx : ℕ) (b : Bool) :
    (MovementResolver.resolve_toggle_single w idx b).1.grid = w.grid
    ∧ (∀ j e', (MovementResolver.resolve_toggle_single w idx b).1.entities.get? j = some e' →
        ∃ e, w.entities.get? j = some e ∧ e'.id = e.id ∧ e'.alive = e.alive ∧ e'.pos = e.pos)
    ∧ (PosDistinct w.entities →
        PosDistinct (MovementResolver.resolve_toggle_single w idx b).1.entities)
    ∧ (InBoundsAll w.grid w.entities →
        InBoundsAll w.grid (MovementResolver.resolve_toggle_single w idx b).1.entities) := by
  unfold MovementResolver.resolve_toggle_single
  cases hget : w.entities.get? idx with
  | none =>
    exact ⟨rfl, fun j e' h => ⟨e', h, rfl, rfl, rfl⟩, fun h => h, fun h => h⟩
  | some e =>
    dsimp only
    by_cases hsam : e.isSAM = true
    case neg =>
      rw [if_pos (by simpa using hsam)]
      exact ⟨rfl, fun j e' h => ⟨e', h, rfl, rfl, rfl⟩, fun h => h, fun h => h⟩
    rw [if_neg (by simpa using hsam)]
    have hlen : idx < w.entities.length := by
      by_contra hge
      rw [List.get?_eq_none.mpr (le_of_not_lt hge)] at hget
      exact Option.noConfusion hget
    refine ⟨rfl, ?_, ?_, ?_⟩
    · intro j e' h
      by_cases hj : j = idx
      · subst hj
        rw [List.get?_eq_getElem?, List.getElem?_set_eq_of_lt _ hlen] at h
        cases h
        exact ⟨e, hget, rfl, rfl, rfl⟩
      · rw [List.get?_eq_getElem?, List.getElem?_set_ne (fun h' => hj h'.symm),
          ← List.get?_eq_getElem?] at h
        exact ⟨e', h, rfl, rfl, rfl⟩
    · intro hd
      exact posDistinct_set_same _ _ _ _ hget rfl rfl hd
    · intro hin
      refine inBounds_set _ _ _ _ ?_ hin
      intro ha
      exact hin e (List.get?_mem hget) ha

/-- Invariants of the toggle pass fold over any index order. -/
theorem toggles_fold_inv (acts : Actions) :
    ∀ (order : List ℕ) (w : WorldState) (logs : List String),
    (order.foldl (fun p idx =>
      match actionAt p.1 acts idx with
      | .toggle b =>
        let step := MovementResolver.resolve_toggle_single p.1 idx b
        (step.1, p.2 ++ [step.2])
      | _ => p) (w, logs)).1.grid = w.grid
    ∧ (∀ j e', ((order.foldl (fun p idx =>
      match actionAt p.1 acts idx with
      | .toggle b =>
        let step := MovementResolver.resolve_toggle_single p.1 idx b
        (step.1, p.2 ++ [step.2])
      | _ => p) (w, logs)).1.entities.get? j = some e') →
        ∃ e, w.entities.get? j = some e ∧ e'.id = e.id ∧ e'.alive = e.alive ∧ e'.pos = e.pos)
    ∧ (PosDistinct w.entities → PosDistinct ((order.foldl (fun p idx =>
      match actionAt p.1 acts idx with
      | .toggle b =>
        let step := MovementResolver.resolve_toggle_single p.1 idx b
        (step.1, p.2 ++ [step.2])
      | _ => p) (w, logs)).1.entities))
    ∧ (InBoundsAll w.grid w.entities → InBoundsAll w.grid ((order.foldl (fun p idx =>
      match actionAt p.1 acts idx with
      | .toggle b =>
        let step := MovementResolver.resolve_toggle_single p.1 idx b
        (step.1, p.2 ++ [step.2])
      | _ => p) (w, logs)).1.entities)) := by
  intro order
  induction order with
  | nil =>
    intro w logs
    exact ⟨rfl, fun j e' h => ⟨e', h, rfl, rfl, rfl⟩, fun h => h, fun h => h⟩
  | cons idx rest ih =>
    intro w logs
    rw [List.foldl_cons]
    cases hact : actionAt w acts idx with
    | toggle b =>
      dsimp only [hact]
      have hstep := resolve_toggle_single_inv w idx b
      set w1 := (MovementResolver.resolve_toggle_single w idx b).1 with hw1
      have ihw := ih w1 (logs ++ [(MovementResolver.resolve_toggle_single w idx b).2])
      refine ⟨ihw.1.trans hstep.1, ?_, ?_, ?_⟩
      · intro j e' h
        obtain ⟨e1, h1, hid1, hal1, hp1⟩ := ihw.2.1 j e' h
        obtain ⟨e0, h0, hid0, hal0, hp0⟩ := hstep.2.1 j e1 h1
        exact ⟨e0, h0, hid1.trans hid0, hal1.trans hal0, hp1.trans hp0⟩
      · intro hd
        exact ihw.2.2.1 (hstep.2.2.1 hd)
      · intro hin
        have := ihw.2.2.2 (hstep.1 ▸ hstep.2.2.2 hin)
        rw [hstep.1] at this
        exact this
    | wait =>
      dsimp only [hact]
      exact ih w logs
    | move dir =>
      dsimp only [hact]
      exact ih w logs
    | shoot t =>
      dsimp only [hact]
      exact ih w logs

/-- Invariants of the toggle pass. -/
theorem resolve_toggles_inv (w : WorldState) (acts : Actions) :
    (MovementResolver.resolve_toggles w acts).1.grid = w.grid
    ∧ (∀ j e', (MovementResolver.resolve_toggles w acts).1.entities.get? j = some e' →
        ∃ e, w.entities.get? j = some e ∧ e'.id = e.id ∧ e'.alive = e.alive ∧ e'.pos = e.pos)
    ∧ (PosDistinct w.entities → PosDistinct (MovementResolver.resolve_toggles w acts).1.entities)
    ∧ (InBoundsAll w.grid w.entities →
        InBoundsAll w.grid (MovementResolver.resolve_toggles w acts).1.entities) :=
  toggles_fold_inv acts (aliveIndices w) w []

/-- Invariants of the wait pass fold over any index order. -/
theorem waits_fold_inv (acts : Actions) :
    ∀ (order : List ℕ) (w : WorldState) (logs : List String),
    (order.foldl (fun p idx =>
      match actionAt p.1 acts idx with
      | .wait =>
        match p.1.entities.get? idx with
        | some e =>
          ({ p.1 with entities := p.1.entities.set idx { e with lastAction := some .wait } },
           p.2 ++ [e.label ++ " waits"])
        | none => p
      | _ => p) (w, logs)).1.grid = w.grid
    ∧ (∀ j e', ((order.foldl (fun p idx =>
      match actionAt p.1 acts idx with
      | .wait =>
        match p.1.entities.get? idx with
        | some e =>
          ({ p.1 with entities := p.1.entities.set idx { e with lastAction := some .wait } },
           p.2 ++ [e.label ++ " waits"])
        | none => p
      | _ => p) (w, logs)).1.entities.get? j = some e') →
        ∃ e, w.entities.get? j = some e ∧ e'.id = e.id ∧ e'.alive = e.alive ∧ e'.pos = e.pos)
    ∧ (PosDistinct w.entities → PosDistinct ((order.foldl (fun p idx =>
      match actionAt p.1 acts idx with
      | .wait =>
        match p.1.entities.get? idx with
        | some e =>
          ({ p.1 with entities := p.1.entities.set idx { e with lastAction := some .wait } },
           p.2 ++ [e.label ++ " waits"])
        | none => p
      | _ => p) (w, logs)).1.entities))
    ∧ (InBoundsAll w.grid w.entities → InBoundsAll w.grid ((order.foldl (fun p idx =>
      match actionAt p.1 acts idx with
      | .wait =>
        match p.1.entities.get? idx with
        | some e =>
          ({ p.1 with entities := p.1.entities.set idx { e with lastAction := some .wait } },
           p.2 ++ [e.label ++ " waits"])
        | none => p
      | _ => p) (w, logs)).1.entities)) := by
  intro order
  induction order with
  | nil =>
    intro w logs
    exact ⟨rfl, fun j e' h => ⟨e', h, rfl, rfl, rfl⟩, fun h => h, fun h => h⟩
  | cons idx rest ih =>
    intro w logs
    rw [List.foldl_cons]
    cases hact : actionAt w acts idx with
    | wait =>
      dsimp only [hact]
      cases hget : w.entities.get? idx with
      | none =>
        dsimp only
        exact ih w logs
      | some e =>
        dsimp only
        have hlen : idx < w.entities.length := by
          by_contra hge
          rw [List.get?_eq_none.mpr (le_of_not_lt hge)] at hget
          exact Option.noConfusion hget
        set w1 : WorldState :=
          { w with entities := w.entities.set idx { e with lastAction := some .wait } } with hw1
        have ihw := ih w1 (logs ++ [e.label ++ " waits"])
        refine ⟨ihw.1, ?_, ?_, ?_⟩
        · intro j e' h
          obtain ⟨e1, h1, hid1, hal1, hp1⟩ := ihw.2.1 j e' h
          by_cases hj : j = idx
          · subst hj
            rw [hw1] at h1
            simp only [List.get?_eq_getElem?] at h1
            rw [List.getElem?_set_eq_of_lt _ hlen] at h1
            cases h1
            exact ⟨e, hget, hid1, hal1, hp1⟩
          · rw [hw1] at h1
            simp only [List.get?_eq_getElem?] at h1
            rw [List.getElem?_set_ne (fun h' => hj h'.symm)] at h1
            exact ⟨e1, by rw [List.get?_eq_getElem?]; exact h1, hid1, hal1, hp1⟩
        · intro hd
          exact ihw.2.2.1 (posDistinct_set_same _ _ _ _ hget rfl rfl hd)
        · intro hin
          refine ihw.2.2.2 ?_
          refine inBounds_set _ _ _ _ ?_ hin
          intro ha
          exact hin e (List.get?_mem hget) ha
    | toggle b =>
      dsimp only [hact]
      exact ih w logs
    | move dir =>
      dsimp only [hact]
      exact ih w logs
    | shoot t =>
      dsimp only [hact]
      exact ih w logs

/-- Invariants of the wait pass. -/
theorem resolve_waits_inv (w : WorldState) (acts : Actions) :
    (MovementResolver.resolve_waits w acts).1.grid = w.grid
    ∧ (∀ j e', (MovementResolver.resolve_waits w acts).1.entities.get? j = some e' →
        ∃ e, w.entities.get? j = some e ∧ e'.id = e.id ∧ e'.alive = e.alive ∧ e'.pos = e.pos)
    ∧ (PosDistinct w.entities → PosDistinct (MovementResolver.resolve_waits w acts).1.entities)
    ∧ (InBoundsAll w.grid w.entities →
        InBoundsAll w.grid (MovementResolver.resolve_waits w acts).1.entities) :=
  waits_fold_inv acts (aliveIndices w) w []

/-- `mark_for_kill` changes only the pending-kill set. -/
theorem mark_for_kill_entities (w : WorldState) (i : ℕ) :
    (w.mark_for_kill i).entities = w.entities ∧ (w.mark_for_kill i).grid = w.grid := by
  unfold WorldState.mark_for_kill
  split <;> exact ⟨rfl, rfl⟩

/-- A single shot step keeps the grid and, pointwise, the id, liveness
and position of every entity (kills are deferred to the pending set). -/
theorem resolve_shot_inv (acts : Actions) (p : WorldState × List ShotResult) (idx : ℕ) :
    (CombatResolver.resolve_shot acts p idx).1.grid = p.1.grid
    ∧ (∀ j e', (CombatResolver.resolve_shot acts p idx).1.entities.get? j = some e' →
        ∃ e, p.1.entities.get? j = some e ∧ e'.id = e.id ∧ e'.alive = e.alive ∧ e'.pos = e.pos)
    ∧ (PosDistinct p.1.entities →
        PosDistinct (CombatResolver.resolve_shot acts p idx).1.entities)
    ∧ (InBoundsAll p.1.grid p.1.entities →
        InBoundsAll p.1.grid (CombatResolver.resolve_shot acts p idx).1.entities) := by
  unfold CombatResolver.resolve_shot
  cases hget : p.1.entities.get? idx with
  | none =>
    exact ⟨rfl, fun j e' h => ⟨e', h, rfl, rfl, rfl⟩, fun h => h, fun h => h⟩
  | some e =>
    dsimp only
    cases hact : Actions.get acts e.id with
    | none =>
      exact ⟨rfl, fun j e' h => ⟨e', h, rfl, rfl, rfl⟩, fun h => h, fun h => h⟩
    | some a =>
      cases a with
      | wait => exact ⟨rfl, fun j e' h => ⟨e', h, rfl, rfl, rfl⟩, fun h => h, fun h => h⟩
      | move dir => exact ⟨rfl, fun j e' h => ⟨e', h, rfl, rfl, rfl⟩, fun h => h, fun h => h⟩
      | toggle b => exact ⟨rfl, fun j e' h => ⟨e', h, rfl, rfl, rfl⟩, fun h => h, fun h => h⟩
      | shoot targetId =>
        dsimp only
        by_cases hval : (validate_action_in_world p.1 e (.shoot targetId)).valid = true
        case neg =>
          rw [if_pos (by simpa using hval)]
          exact ⟨rfl, fun j e' h => ⟨e', h, rfl, rfl, rfl⟩, fun h => h, fun h => h⟩
        rw [if_neg (by simpa using hval)]
        have hlen : idx < p.1.entities.length := by
          by_contra hge
          rw [List.get?_eq_none.mpr (le_of_not_lt hge)] at hget
          exact Option.noConfusion hget
        set e' : Entity :=
          { e with missiles := e.missiles - 1,
                   lastAction := some (.shoot targetId),
                   cooldown := if e.isSAM then e.cooldownSteps else e.cooldown } with he'
        set w1 : WorldState :=
          { p.1 with entities := p.1.entities.set idx e', rng := (rngNext p.1.rng).2 } with hww1
        set w2 := w1.set_team_view e.team.opponent
          ((w1.get_team_view e.team.opponent).record_enemy_fired e.id) with hww2
        set w3 := if (rngNext p.1.rng).1 % 2 = 0 then w2.mark_for_kill targetId else w2 with hww3
        have h2e : w2.entities = w1.entities := (set_team_view_entities w1 _ _).1
        have h2g : w2.grid = w1.grid := (set_team_view_entities w1 _ _).2
        have hent3 : w3.entities = p.1.entities.set idx e' := by
          rw [hww3]
          split
          · rw [(mark_for_kill_entities w2 targetId).1, h2e]
          · rw [h2e]
        have hgrid3 : w3.grid = p.1.grid := by
          rw [hww3]
          split
          · rw [(mark_for_kill_entities w2 targetId).2, h2g]
          · rw [h2g]
        refine ⟨hgrid3, ?_, ?_, ?_⟩
        · intro j x h
          rw [hent3] at h
          by_cases hj : j = idx
          · subst hj
            rw [List.get?_eq_getElem?, List.getElem?_set_eq_of_lt _ hlen] at h
            cases h
            exact ⟨e, hget, rfl, rfl, rfl⟩
          · rw [List.get?_eq_getElem?, List.getElem?_set_ne (fun h' => hj h'.symm),
              ← List.get?_eq_getElem?] at h
            exact ⟨x, h, rfl, rfl, rfl⟩
        · intro hd
          rw [hent3]
          exact posDistinct_set_same _ _ _ _ hget rfl rfl hd
        · intro hin
          rw [hent3]
          refine inBounds_set _ _ _ _ ?_ hin
          intro ha
          exact hin e (List.get?_mem hget) ha

/-- Invariants of the shot fold of the combat phase, by induction from
`resolve_shot_inv`. -/
theorem combat_fold_inv (acts : Actions) :
    ∀ (order : List ℕ) (w : WorldState) (rs : List ShotResult),
    (order.foldl (CombatResolver.resolve_shot acts) (w, rs)).1.grid = w.grid
    ∧ (∀ j e', (order.foldl (CombatResolver.resolve_shot acts) (w, rs)).1.entities.get? j
          = some e' →
        ∃ e, w.entities.get? j = some e ∧ e'.id = e.id ∧ e'.alive = e.alive ∧ e'.pos = e.pos)
    ∧ (PosDistinct w.entities →
        PosDistinct ((order.foldl (CombatResolver.resolve_shot acts) (w, rs)).1.entities))
    ∧ (InBoundsAll w.grid w.entities →
        InBoundsAll w.grid
          ((order.foldl (CombatResolver.resolve_shot acts) (w, rs)).1.entities)) := by
  intro order
  induction order with
  | nil =>
    intro w rs
    exact ⟨rfl, fun j e' h => ⟨e', h, rfl, rfl, rfl⟩, fun h => h, fun h => h⟩
  | cons idx rest ih =>
    intro w rs
    rw [List.foldl_cons]
    obtain ⟨hg1, hc1, hd1, hb1⟩ := resolve_shot_inv acts (w, rs) idx
    set q := CombatResolver.resolve_shot acts (w, rs) idx with hq
    have ihq := ih q.1 q.2
    rw [Prod.mk.eta] at ihq
    refine ⟨ihq.1.trans hg1, ?_, ?_, ?_⟩
    · intro j x h
      obtain ⟨e1, h1, hid1, hal1, hp1⟩ := ihq.2.1 j x h
      obtain ⟨e0, h0, hid0, hal0, hp0⟩ := hc1 j e1 h1
      exact ⟨e0, h0, hid1.trans hid0, hal1.trans hal0, hp1.trans hp0⟩
    · intro hd
      exact ihq.2.2.1 (hd1 hd)
    · intro hin
      have := ihq.2.2.2 (hg1 ▸ hb1 hin)
      rwa [hg1] at this

/-- The deferred-kill map keeps positions. -/
theorem killMap_pos (kills : List ℕ) (x : Entity) :
    (if kills.contains x.id then { x with alive := false } else x).pos = x.pos := by
  split <;> rfl

/-- The deferred-kill map never revives an entity. -/
theorem killMap_alive (kills : List ℕ) (x : Entity) :
    (if kills.contains x.id then { x with alive := false } else x).alive = true →
    x.alive = true := by
  split
  · intro h
    exact absurd h (by simp)
  · exact fun h => h

/-- The combat phase preserves the grid, position-distinctness and
boundedness of the living entities: shots defer kills, and applying the
pending kills only moves entities from alive to dead. -/
theorem resolve_combat_inv (w : WorldState) (acts : Actions) :
    (CombatResolver.resolve_combat w acts).1.grid = w.grid
    ∧ (PosDistinct w.entities → PosDistinct (CombatResolver.resolve_combat w acts).1.entities)
    ∧ (InBoundsAll w.grid w.entities →
        InBoundsAll w.grid (CombatResolver.resolve_combat w acts).1.entities) := by
  obtain ⟨hg, hc, hd, hb⟩ := combat_fold_inv acts
    ((List.range w.entities.length).filter (fun i =>
      match w.entities.get? i with
      | some e => e.alive ∧ (acts.get e.id).any Action.isShoot
      | none => false)) w []
  unfold CombatResolver.resolve_combat
  dsimp only
  refine ⟨?_, ?_, ?_⟩
  · split <;> exact hg
  · intro hdw
    split <;>
      exact posDistinct_map _ _ (fun x => killMap_pos _ x) (fun x => killMap_alive _ x) (hd hdw)
  · intro hbw
    split <;>
      exact inBounds_map _ _ _ (fun x => killMap_pos _ x) (fun x => killMap_alive _ x) (hb hbw)

/-- The per-entity observation-ingest fold of the sensor refresh touches
only the team views. -/
theorem obsFold_inv (l : List Entity) : ∀ w : WorldState,
    ((l.foldl (fun acc e =>
        acc.set_team_view e.team
          ((acc.get_team_view e.team).add_observations
            (computeEntityObservations acc.entities e))) w).entities = w.entities)
    ∧ ((l.foldl (fun acc e =>
        acc.set_team_view e.team
          ((acc.get_team_view e.team).add_observations
            (computeEntityObservations acc.entities e))) w).grid = w.grid) := by
  induction l with
  | nil => exact fun w => ⟨rfl, rfl⟩
  | cons x xs ih =>
    intro w
    rw [List.foldl_cons]
    exact ⟨(ih _).1.trans (set_team_view_entities _ _ _).1,
           (ih _).2.trans (set_team_view_entities _ _ _).2⟩

/-- The self-observation fold of the sensor refresh touches only the
team views. -/
theorem selfObsFold_inv (l : List Entity) : ∀ w : WorldState,
    ((l.foldl (fun acc e =>
        if e.alive then
          acc.set_team_view e.team
            ((acc.get_team_view e.team).add_observation
              { entity_id := e.id, kind := e.kind, team := e.team,
                position := e.pos, dSq := 0, seen_by := [e.id] })
        else acc) w).entities = w.entities)
    ∧ ((l.foldl (fun acc e =>
        if e.alive then
          acc.set_team_view e.team
            ((acc.get_team_view e.team).add_observation
              { entity_id := e.id, kind := e.kind, team := e.team,
                position := e.pos, dSq := 0, seen_by := [e.id] })
        else acc) w).grid = w.grid) := by
  induction l with
  | nil => exact fun w => ⟨rfl, rfl⟩
  | cons x xs ih =>
    intro w
    rw [List.foldl_cons]
    refine ⟨(ih _).1.trans ?_, (ih _).2.trans ?_⟩
    · split
      · exact (set_team_view_entities _ _ _).1
      · rfl
    · split
      · exact (set_team_view_entities _ _ _).2
      · rfl

/-- The sensor refresh recomputes views only: entity list and grid are
untouched. -/
theorem refresh_entities_grid (w : WorldState) :
    (SensorSystem.refresh_all_observations w).entities = w.entities
    ∧ (SensorSystem.refresh_all_observations w).grid = w.grid := by
  unfold SensorSystem.refresh_all_observations
  dsimp only
  constructor
  · rw [(selfObsFold_inv _ _).1, (obsFold_inv _ _).1,
      (set_team_view_entities _ _ _).1, (set_team_view_entities _ _ _).1]
  · rw [(selfObsFold_inv _ _).2, (obsFold_inv _ _).2,
      (set_team_view_entities _ _ _).2, (set_team_view_entities _ _ _).2]

/-- Ticking a cooldown changes no identity, liveness or position. -/
theorem tick_cooldown_id (e : Entity) : e.tick_cooldown.id = e.id := by
  rw [Entity.tick_cooldown]
  split <;> rfl

theorem tick_cooldown_alive (e : Entity) : e.tick_cooldown.alive = e.alive := by
  rw [Entity.tick_cooldown]
  split <;> rfl

theorem tick_cooldown_pos (e : Entity) : e.tick_cooldown.pos = e.pos := by
  rw [Entity.tick_cooldown]
  split <;> rfl

theorem hkMap_id (x : Entity) :
    (if x.alive ∧ x.isSAM then x.tick_cooldown else x).id = x.id := by
  split
  · exact tick_cooldown_id x
  · rfl

theorem hkMap_alive (x : Entity) :
    (if x.alive ∧ x.isSAM then x.tick_cooldown else x).alive = x.alive := by
  split
  · exact tick_cooldown_alive x
  · rfl

theorem hkMap_pos (x : Entity) :
    (if x.alive ∧ x.isSAM then x.tick_cooldown else x).pos = x.pos := by
  split
  · exact tick_cooldown_pos x
  · rfl

/-- Housekeeping (SAM cooldown tick) preserves the grid and, pointwise,
every entity's identity, liveness and position. -/
theorem housekeeping_inv (w : WorldState) :
    (GridCombatEnv.housekeeping w).grid = w.grid
    ∧ (∀ j e', (GridCombatEnv.housekeeping w).entities.get? j = some e' →
        ∃ e, w.entities.get? j = some e ∧ e'.id = e.id ∧ e'.alive = e.alive ∧ e'.pos = e.pos)
    ∧ (PosDistinct w.entities → PosDistinct (GridCombatEnv.housekeeping w).entities)
    ∧ (InBoundsAll w.grid w.entities → InBoundsAll w.grid (GridCombatEnv.housekeeping w).entities)
    := by
  unfold GridCombatEnv.housekeeping
  dsimp only
  refine ⟨rfl, ?_, ?_, ?_⟩
  · intro j e' h
    rw [List.get?_eq_getElem?, List.getElem?_map] at h
    cases hx : w.entities[j]? with
    | none =>
      rw [hx] at h
      exact Option.noConfusion h
    | some x =>
      rw [hx, Option.map_some'] at h
      cases h
      exact ⟨x, by rw [List.get?_eq_getElem?, hx], hkMap_id x, hkMap_alive x, hkMap_pos x⟩
  · intro hd
    exact posDistinct_map _ _ (fun x => hkMap_pos x)
      (fun x h => (hkMap_alive x).symm.trans h) hd
  · intro hin
    exact inBounds_map _ _ _ (fun x => hkMap_pos x)
      (fun x h => (hkMap_alive x).symm.trans h) hin

/-- Queued MOVE destinations stay legal across a phase that preserves
the grid and every entity's identity and position. -/
theorem destOk_transfer (w w' : WorldState) (acts : Actions)
    (hg : w'.grid = w.grid)
    (hc : ∀ j e', w'.entities.get? j = some e' →
        ∃ e, w.entities.get? j = some e ∧ e'.id = e.id ∧ e'.pos = e.pos)
    (i : ℕ) (h : DestOk w acts i) : DestOk w' acts i := by
  intro e dir hget hact
  obtain ⟨e0, h0, hid, hpos⟩ := hc i e hget
  rw [hid] at hact
  rw [hg, hpos]
  exact h e0 dir h0 hact

/-- The full movement/toggle/wait phase preserves the grid,
position-distinctness, boundedness (when every queued MOVE destination
is in-bounds), and returns one movement result per queued mover. -/
theorem resolve_actions_inv (w : WorldState) (acts : Actions) (b : Bool) :
    (MovementResolver.resolve_actions w acts b).1.grid = w.grid
    ∧ (PosDistinct w.entities →
        PosDistinct (MovementResolver.resolve_actions w acts b).1.entities)
    ∧ (InBoundsAll w.grid w.entities → (∀ i, DestOk w acts i) →
        InBoundsAll w.grid (MovementResolver.resolve_actions w acts b).1.entities)
    ∧ (MovementResolver.resolve_actions w acts b).2.movement_results.length
        = (movingIndices w acts).length := by
  obtain ⟨hg1, hc1, hd1, hb1, hl1⟩ := resolve_all_inv w acts b
  obtain ⟨hg2, hc2, hd2, hb2⟩ := resolve_toggles_inv (MovementResolver.resolve_all w acts b).1 acts
  obtain ⟨hg3, hc3, hd3, hb3⟩ := resolve_waits_inv
    (MovementResolver.resolve_toggles (MovementResolver.resolve_all w acts b).1 acts).1 acts
  unfold MovementResolver.resolve_actions
  dsimp only
  refine ⟨?_, ?_, ?_, ?_⟩
  · split <;> exact hg3.trans (hg2.trans hg1)
  · intro hd
    split <;> exact hd3 (hd2 (hd1 hd))
  · intro hin hok
    have h1 : InBoundsAll w.grid (MovementResolver.resolve_all w acts b).1.entities :=
      hb1 hin hok
    rw [← hg1] at h1
    have h2 := hb2 h1
    rw [hg1] at h2
    rw [← hg2.trans hg1] at h2
    have h3 := hb3 h2
    rw [hg2.trans hg1] at h3
    split <;> exact h3
  · exact hl1

/-- A step's output entity list is the combat phase's output entity list
(the sensor refresh and the game-over bookkeeping do not touch it). -/
theorem step_entities_eq (cfg : VictoryConfig) (w : WorldState) (acts : Actions) :
    (GridCombatEnv.step cfg w acts).1.entities
      = (CombatResolver.resolve_combat
          ((MovementResolver.resolve_actions
            (GridCombatEnv.housekeeping { w with turn := w.turn + 1 }) acts true).1)
          acts).1.entities := by
  unfold GridCombatEnv.step
  dsimp only
  split <;> exact (refresh_entities_grid _).1

/-- Appending an entity whose position collides with no living entry
preserves position-distinctness. -/
theorem posDistinct_append (l : List Entity) (e : Entity)
    (hd : PosDistinct l)
    (hnew : e.alive = true → ∀ f ∈ l, f.alive = true → f.pos ≠ e.pos) :
    PosDistinct (l ++ [e]) := by
  intro i j x y hij hx hy hxa hya
  by_cases hi : i < l.length
  · by_cases hj : j < l.length
    · rw [List.get?_append hi] at hx
      rw [List.get?_append hj] at hy
      exact hd i j x y hij hx hy hxa hya
    · rw [List.get?_append hi] at hx
      rw [List.get?_append_right (le_of_not_lt hj)] at hy
      have hyj : y = e := by
        cases hjl : j - l.length with
        | zero =>
          rw [hjl] at hy
          cases hy
          rfl
        | succ m =>
          rw [hjl] at hy
          exact Option.noConfusion hy
      subst hyj
      exact fun hpp => hnew hya x (List.get?_mem hx) hxa hpp
  · by_cases hj : j < l.length
    · rw [List.get?_append_right (le_of_not_lt hi)] at hx
      rw [List.get?_append hj] at hy
      have hxi : x = e := by
        cases hil : i - l.length with
        | zero =>
          rw [hil] at hx
          cases hx
          rfl
        | succ m =>
          rw [hil] at hx
          exact Option.noConfusion hx
      subst hxi
      exact fun hpp => hnew hxa y (List.get?_mem hy) hya hpp.symm
    · exfalso
      rw [List.get?_append_right (le_of_not_lt hi)] at hx
      rw [List.get?_append_right (le_of_not_lt hj)] at hy
      have hi1 : i - l.length = 0 := by
        cases hil : i - l.length with
        | zero => rfl
        | succ m =>
          rw [hil] at hx
          exact Option.noConfusion hx
      have hj1 : j - l.length = 0 := by
        cases hjl : j - l.length with
        | zero => rfl
        | succ m =>
          rw [hjl] at hy
          exact Option.noConfusion hy
      have := le_of_not_lt hi
      have := le_of_not_lt hj
      omega

/-- Appending an in-bounds (or dead) entity keeps every living entry in
bounds. -/
theorem inBounds_append (g : Grid) (l : List Entity) (e : Entity)
    (h : InBoundsAll g l) (he : e.alive = true → g.in_bounds e.pos = true) :
    InBoundsAll g (l ++ [e]) := by
  intro x hx hxa
  rcases List.mem_append.mp hx with hmem | hmem
  · exact h x hmem hxa
  · rw [List.mem_singleton.mp hmem]
    exact he ((List.mem_singleton.mp hmem) ▸ hxa)

/-- An unoccupied cell collides with no living entity. -/
theorem not_occupied_forall (w : WorldState) (p : ℤ × ℤ)
    (h : w.is_position_occupied p = false) :
    ∀ f ∈ w.entities, f.alive = true → f.pos ≠ p := by
  intro f hf hfa hpp
  rw [WorldState.is_position_occupied, List.any_eq_false] at h
  exact h f hf (by simp [hfa, hpp])

/-- `PosDistinct` from a decidable pairwise check. -/
theorem posDistinct_of_pairwise (l : List Entity)
    (h : l.Pairwise (fun a b => a.alive = true → b.alive = true → a.pos ≠ b.pos)) :
    PosDistinct l := by
  intro i j x y hij hx hy hxa hya
  have hi : i < l.length := by
    by_contra hge
    rw [List.get?_eq_none.mpr (le_of_not_lt hge)] at hx
    exact Option.noConfusion hx
  have hj : j < l.length := by
    by_contra hge
    rw [List.get?_eq_none.mpr (le_of_not_lt hge)] at hy
    exact Option.noConfusion hy
  rw [List.get?_eq_getElem?, List.getElem?_eq_getElem hi] at hx
  rw [List.get?_eq_getElem?, List.getElem?_eq_getElem hj] at hy
  cases hx
  cases hy
  rw [List.pairwise_iff_getElem] at h
  rcases lt_or_gt_of_ne hij with hlt | hgt
  · exact h i j hi hj hlt hxa hya
  · exact fun hpp => h j i hj hi hgt hya hxa hpp.symm

/-- `DestOk` for every index from a decidable membership check. -/
theorem destOk_all_of_forall (w : WorldState) (acts : Actions)
    (h : ∀ e ∈ w.entities, ∀ dir : MoveDir, Actions.get acts e.id = some (.move dir) →
      w.grid.in_bounds (e.pos.1 + dir.delta.1, e.pos.2 + dir.delta.2) = true) :
    ∀ i, DestOk w acts i := by
  intro i e dir hget hact
  exact h e (List.get?_mem hget) dir hact

/-- `InBoundsAll` introduction (the definition unfolded, for decidable
discharge at concrete worlds). -/
theorem inBoundsAll_intro (g : Grid) (l : List Entity)
    (h : ∀ e ∈ l, e.alive = true → g.in_bounds e.pos = true) : InBoundsAll g l := h

/-- C4 (amended): occupancy is preserved by `step()` — if no two living
entities share a position before a step, none do after: a MOVE is applied
only when its destination is unoccupied by a living entity at the moment
that move resolves, combat defers kills to the end of the phase, and no
other phase changes positions or revives entities.  `add_entity` accepts
exactly the in-bounds, not-living-occupied placements and preserves both
halves of the invariant.  In-bounds preservation by `step()` however
needs the extra proviso that every queued MOVE's destination lies inside
the grid, because the code dropped the bounds check from movement
validation (src/env/mechanics/movement.py lines 205-207) — without the
proviso it fails, see the counterexample. -/
theorem step_preserves_occupancy (cfg : VictoryConfig) (w : WorldState) (acts : Actions)
    (e : Entity) (hd : PosDistinct w.entities) :
    PosDistinct (GridCombatEnv.step cfg w acts).1.entities
    ∧ (InBoundsAll w.grid w.entities → (∀ i, DestOk w acts i) →
        InBoundsAll w.grid (GridCombatEnv.step cfg w acts).1.entities)
    ∧ (∀ w', w.add_entity e = some w' →
        w.grid.in_bounds e.pos = true ∧ w.is_position_occupied e.pos = false
        ∧ PosDistinct w'.entities
        ∧ (InBoundsAll w.grid w.entities → InBoundsAll w'.grid w'.entities)) := by
  have hkinv := housekeeping_inv ({ w with turn := w.turn + 1 })
  have hain := resolve_actions_inv
    (GridCombatEnv.housekeeping { w with turn := w.turn + 1 }) acts true
  have hcinv := resolve_combat_inv
    ((MovementResolver.resolve_actions
      (GridCombatEnv.housekeeping { w with turn := w.turn + 1 }) acts true).1) acts
  refine ⟨?_, ?_, ?_⟩
  · rw [step_entities_eq]
    exact hcinv.2.1 (hain.2.1 (hkinv.2.2.1 hd))
  · intro hin hok
    rw [step_entities_eq]
    have h2 : InBoundsAll w.grid
        (GridCombatEnv.housekeeping { w with turn := w.turn + 1 }).entities :=
      hkinv.2.2.2 hin
    have hok2 : ∀ i, DestOk (GridCombatEnv.housekeeping { w with turn := w.turn + 1 }) acts i := by
      intro i
      refine destOk_transfer w _ acts hkinv.1 ?_ i (hok i)
      intro j e' hj
      obtain ⟨e0, h0, hid, _, hpos⟩ := hkinv.2.1 j e' hj
      exact ⟨e0, h0, hid, hpos⟩
    have h3 := hain.2.2.1 h2 hok2
    rw [← hain.1] at h3
    have h4 := hcinv.2.2 h3
    rw [hain.1] at h4
    exact h4
  · intro w' hw'
    unfold WorldState.add_entity at hw'
    by_cases hib : w.grid.in_bounds e.pos = true
    case neg =>
      rw [if_pos hib] at hw'
      exact absurd hw' (by simp)
    rw [if_neg (by simpa using hib)] at hw'
    by_cases hoc : w.is_position_occupied e.pos = true
    case pos =>
      rw [if_pos hoc] at hw'
      exact absurd hw' (by simp)
    rw [if_neg hoc] at hw'
    cases hw'
    refine ⟨hib, by simpa using hoc, ?_, ?_⟩
    · exact posDistinct_append w.entities e hd
        (fun _ f hf hfa => not_occupied_forall w e.pos (by simpa using hoc) f hf hfa)
    · intro hin
      exact inBounds_append w.grid w.entities e hin (fun _ => hib)

/-- Witness for C4 at the pipeline world: one MOVE and one SHOOT resolve
and both halves of the occupancy invariant hold after the step. -/
theorem step_preserves_occupancy_witness :
    PosDistinct (GridCombatEnv.step stdCfg pipeWorld pipeActs).1.entities
    ∧ InBoundsAll pipeWorld.grid (GridCombatEnv.step stdCfg pipeWorld pipeActs).1.entities := by
  have h := step_preserves_occupancy stdCfg pipeWorld pipeActs pipeAir
    (posDistinct_of_pairwise _ (by decide))
  exact ⟨h.1, h.2.1 (inBoundsAll_intro _ _ (by decide)) (destOk_all_of_forall _ _ (by decide))⟩

/-- Failed entity-level validation always carries an error code. -/
theorem validate_invalid_has_code (e : Entity) (a : Action) :
    (e.validate_action a).valid = false → ∃ c, (e.validate_action a).error_code = some c := by
  unfold Entity.validate_action
  repeat' split
  all_goals
    first
      | exact fun _ => ⟨_, rfl⟩
      | exact fun h => absurd h (by simp [ActionValidation.success])

/-- An id keyed into the action map but equal to no queried id reads
back the same as before the insertion. -/
theorem actions_get_append_ne (acts : Actions) (k i : ℕ) (a : Action) (h : i ≠ k) :
    Actions.get (acts ++ [(k, a)]) i = Actions.get acts i := by
  unfold Actions.get
  rw [List.find?_append]
  have h2 : List.find? (fun p => p.1 = i) [(k, a)] = none := by
    simp only [List.find?]
    rw [decide_eq_false (Ne.symm h)]
  rw [h2]
  cases List.find? (fun p => p.1 = i) acts <;> rfl

/-- Setting an index to a value with the same id and liveness keeps the
pointwise id/liveness correspondence. -/
theorem set_corr (l : List Entity) (idx : ℕ) (e e' : Entity)
    (hget : l.get? idx = some e) (hid : e'.id = e.id) (hal : e'.alive = e.alive) :
    ∀ j x, (l.set idx e').get? j = some x →
      ∃ y, l.get? j = some y ∧ x.id = y.id ∧ x.alive = y.alive := by
  have hlen : idx < l.length := by
    by_contra hge
    rw [List.get?_eq_none.mpr (le_of_not_lt hge)] at hget
    exact Option.noConfusion hget
  intro j x h
  by_cases hj : j = idx
  · subst hj
    rw [List.get?_eq_getElem?, List.getElem?_set_eq_of_lt _ hlen] at h
    cases h
    exact ⟨e, hget, hid, hal⟩
  · rw [List.get?_eq_getElem?, List.getElem?_set_ne (fun h' => hj h'.symm),
      ← List.get?_eq_getElem?] at h
    exact ⟨x, h, rfl, rfl⟩

/-- Members of the movement queue point at living entities. -/
theorem mem_movingIndices_alive (w : WorldState) (acts : Actions) (i : ℕ)
    (h : i ∈ movingIndices w acts) : ∀ e, w.entities.get? i = some e → e.alive = true := by
  unfold movingIndices at h
  rw [List.mem_filter] at h
  intro e hget
  have h2 := h.2
  rw [hget] at h2
  have h3 : e.alive = true ∧ (Actions.get acts e.id).any Action.isMove = true := by
    simpa using h2
  exact h3.1

/-- Members of the alive-index list point at living entities. -/
theorem mem_aliveIndices_alive (w : WorldState) (i : ℕ)
    (h : i ∈ aliveIndices w) : ∀ e, w.entities.get? i = some e → e.alive = true := by
  unfold aliveIndices at h
  rw [List.mem_filter] at h
  intro e hget
  have h2 := h.2
  rw [hget] at h2
  simpa using h2

/-- Two action maps agreeing on every living id queue the same movers. -/
theorem movingIndices_congr (w : WorldState) (acts acts' : Actions)
    (hagree : ∀ j e, w.entities.get? j = some e → e.alive = true →
      Actions.get acts' e.id = Actions.get acts e.id) :
    movingIndices w acts' = movingIndices w acts := by
  unfold movingIndices
  apply List.filter_congr
  intro i _
  cases hget : w.entities.get? i with
  | none => rfl
  | some e =>
    dsimp only
    by_cases he : e.alive = true
    · rw [hagree i e hget he]
    · have he' : e.alive = false := by simpa using he
      simp [he']

/-- The movement fold depends on the action map only through the living
ids it queries. -/
theorem resolve_fold_congr (acts acts' : Actions) :
    ∀ (order : List ℕ) (w : WorldState) (rs : List MovementResult),
    (∀ j e, w.entities.get? j = some e → e.alive = true →
      Actions.get acts' e.id = Actions.get acts e.id) →
    (∀ i ∈ order, ∀ e, w.entities.get? i = some e → e.alive = true) →
    order.foldl (fun p idx =>
        ((MovementResolver.resolve_single p.1 idx (actionAt p.1 acts' idx)).1,
         p.2 ++ [(MovementResolver.resolve_single p.1 idx (actionAt p.1 acts' idx)).2]))
      (w, rs)
    = order.foldl (fun p idx =>
        ((MovementResolver.resolve_single p.1 idx (actionAt p.1 acts idx)).1,
         p.2 ++ [(MovementResolver.resolve_single p.1 idx (actionAt p.1 acts idx)).2]))
      (w, rs) := by
  intro order
  induction order with
  | nil => exact fun w rs _ _ => rfl
  | cons idx rest ih =>
    intro w rs hagree halive
    rw [List.foldl_cons, List.foldl_cons]
    dsimp only
    have hact : actionAt w acts' idx = actionAt w acts idx := by
      unfold actionAt
      cases hget : w.entities.get? idx with
      | none => rfl
      | some e =>
        dsimp only
        rw [hagree idx e hget (halive idx (List.mem_cons_self _ _) e hget)]
    rw [hact]
    apply ih
    · intro j e hj he
      obtain ⟨e0, h0, hid, hal⟩ :=
        (resolve_single_inv w idx (actionAt w acts idx)).2.2.1 j e hj
      rw [hid]
      exact hagree j e0 h0 (hal ▸ he)
    · intro i hi e hj
      obtain ⟨e0, h0, hid, hal⟩ :=
        (resolve_single_inv w idx (actionAt w acts idx)).2.2.1 i e hj
      rw [hal]
      exact halive i (List.mem_cons_of_mem _ hi) e0 h0

/-- The toggle fold depends on the action map only through the living
ids it queries. -/
theorem toggles_fold_congr (acts acts' : Actions) :
    ∀ (order : List ℕ) (w : WorldState) (logs : List String),
    (∀ j e, w.entities.get? j = some e → e.alive = true →
      Actions.get acts' e.id = Actions.get acts e.id) →
    (∀ i ∈ order, ∀ e, w.entities.get? i = some e → e.alive = true) →
    order.foldl (fun p idx =>
      match actionAt p.1 acts' idx with
      | .toggle b =>
        let step := MovementResolver.resolve_toggle_single p.1 idx b
        (step.1, p.2 ++ [step.2])
      | _ => p) (w, logs)
    = order.foldl (fun p idx =>
      match actionAt p.1 acts idx with
      | .toggle b =>
        let step := MovementResolver.resolve_toggle_single p.1 idx b
        (step.1, p.2 ++ [step.2])
      | _ => p) (w, logs) := by
  intro order
  induction order with
  | nil => exact fun w logs _ _ => rfl
  | cons idx rest ih =>
    intro w logs hagree halive
    rw [List.foldl_cons, List.foldl_cons]
    dsimp only
    have hact : actionAt w acts' idx = actionAt w acts idx := by
      unfold actionAt
      cases hget : w.entities.get? idx with
      | none => rfl
      | some e =>
        dsimp only
        rw [hagree idx e hget (halive idx (List.mem_cons_self _ _) e hget)]
    rw [hact]
    have htail : ∀ i ∈ rest, ∀ e, w.entities.get? i = some e → e.alive = true :=
      fun i hi => halive i (List.mem_cons_of_mem _ hi)
    cases hA : actionAt w acts idx with
    | toggle b =>
      dsimp only
      apply ih
      · intro j e hj he
        obtain ⟨e0, h0, hid, hal, _⟩ := (resolve_toggle_single_inv w idx b).2.1 j e hj
        rw [hid]
        exact hagree j e0 h0 (hal ▸ he)
      · intro i hi e hj
        obtain ⟨e0, h0, hid, hal, _⟩ := (resolve_toggle_single_inv w idx b).2.1 i e hj
        rw [hal]
        exact htail i hi e0 h0
    | wait =>
      dsimp only
      exact ih w logs hagree htail
    | move dir =>
      dsimp only
      exact ih w logs hagree htail
    | shoot t =>
      dsimp only
      exact ih w logs hagree htail

/-- The wait fold depends on the action map only through the living ids
it queries. -/
theorem waits_fold_congr (acts acts' : Actions) :
    ∀ (order : List ℕ) (w : WorldState) (logs : List String),
    (∀ j e, w.entities.get? j = some e → e.alive = true →
      Actions.get acts' e.id = Actions.get acts e.id) →
    (∀ i ∈ order, ∀ e, w.entities.get? i = some e → e.alive = true) →
    order.foldl (fun p idx =>
      match actionAt p.1 acts' idx with
      | .wait =>
        match p.1.entities.get? idx with
        | some e =>
          ({ p.1 with entities := p.1.entities.set idx { e with lastAction := some .wait } },
           p.2 ++ [e.label ++ " waits"])
        | none => p
      | _ => p) (w, logs)
    = order.foldl (fun p idx =>
      match actionAt p.1 acts idx with
      | .wait =>
        match p.1.entities.get? idx with
        | some e =>
          ({ p.1 with entities := p.1.entities.set idx { e with lastAction := some .wait } },
           p.2 ++ [e.label ++ " waits"])
        | none => p
      | _ => p) (w, logs) := by
  intro order
  induction order with
  | nil => exact fun w logs _ _ => rfl
  | cons idx rest ih =>
    intro w logs hagree halive
    rw [List.foldl_cons, List.foldl_cons]
    dsimp only
    have hact : actionAt w acts' idx = actionAt w acts idx := by
      unfold actionAt
      cases hget : w.entities.get? idx with
      | none => rfl
      | some e =>
        dsimp only
        rw [hagree idx e hget (halive idx (List.mem_cons_self _ _) e hget)]
    rw [hact]
    have htail : ∀ i ∈ rest, ∀ e, w.entities.get? i = some e → e.alive = true :=
      fun i hi => halive i (List.mem_cons_of_mem _ hi)
    cases hA : actionAt w acts idx with
    | wait =>
      dsimp only
      cases hget : w.entities.get? idx with
      | none =>
        dsimp only
        exact ih w logs hagree htail
      | some e =>
        dsimp only
        apply ih
        · intro j x hj hx
          obtain ⟨y, hy, hidy, haly⟩ :=
            set_corr w.entities idx e { e with lastAction := some .wait } hget rfl rfl j x hj
          rw [hidy]
          exact hagree j y hy (haly ▸ hx)
        · intro i hi x hj
          obtain ⟨y, hy, hidy, haly⟩ :=
            set_corr w.entities idx e { e with lastAction := some .wait } hget rfl rfl i x hj
          rw [haly]
          exact htail i hi y hy
    | toggle b =>
      dsimp only
      exact ih w logs hagree htail
    | move dir =>
      dsimp only
      exact ih w logs hagree htail
    | shoot t =>
      dsimp only
      exact ih w logs hagree htail

/-- Movement resolution depends on the action map only through the
living ids. -/
theorem resolve_all_congr (w : WorldState) (acts acts' : Actions) (b : Bool)
    (hagree : ∀ j e, w.entities.get? j = some e → e.alive = true →
      Actions.get acts' e.id = Actions.get acts e.id) :
    MovementResolver.resolve_all w acts' b = MovementResolver.resolve_all w acts b := by
  unfold MovementResolver.resolve_all
  dsimp only
  rw [movingIndices_congr w acts acts' hagree]
  apply resolve_fold_congr acts acts'
  · exact hagree
  · intro i hi e hget
    have hmem : i ∈ movingIndices w acts := by
      cases b with
      | true =>
        exact (rngShuffle_perm w.rng (movingIndices w acts)).mem_iff.mp (by simpa using hi)
      | false => simpa using hi
    exact mem_movingIndices_alive w acts i hmem e hget

/-- Toggle resolution depends on the action map only through the living
ids. -/
theorem resolve_toggles_congr (w : WorldState) (acts acts' : Actions)
    (hagree : ∀ j e, w.entities.get? j = some e → e.alive = true →
      Actions.get acts' e.id = Actions.get acts e.id) :
    MovementResolver.resolve_toggles w acts' = MovementResolver.resolve_toggles w acts := by
  unfold MovementResolver.resolve_toggles
  apply toggles_fold_congr acts acts' (aliveIndices w) w []
  · exact hagree
  · exact fun i hi e hget => mem_aliveIndices_alive w i hi e hget

/-- Wait resolution depends on the action map only through the living
ids. -/
theorem resolve_waits_congr (w : WorldState) (acts acts' : Actions)
    (hagree : ∀ j e, w.entities.get? j = some e → e.alive = true →
      Actions.get acts' e.id = Actions.get acts e.id) :
    MovementResolver.resolve_waits w acts' = MovementResolver.resolve_waits w acts := by
  unfold MovementResolver.resolve_waits
  apply waits_fold_congr acts acts' (aliveIndices w) w []
  · exact hagree
  · exact fun i hi e hget => mem_aliveIndices_alive w i hi e hget

/-- The whole movement/toggle/wait phase depends on the action map only
through the living ids. -/
theorem resolve_actions_congr (w : WorldState) (acts acts' : Actions) (b : Bool)
    (hagree : ∀ j e, w.entities.get? j = some e → e.alive = true →
      Actions.get acts' e.id = Actions.get acts e.id) :
    MovementResolver.resolve_actions w acts' b = MovementResolver.resolve_actions w acts b := by
  unfold MovementResolver.resolve_actions
  dsimp only
  rw [resolve_all_congr w acts acts' b hagree]
  have hagree2 : ∀ j e, (MovementResolver.resolve_all w acts b).1.entities.get? j = some e →
      e.alive = true → Actions.get acts' e.id = Actions.get acts e.id := by
    intro j e hj he
    obtain ⟨e0, h0, hid, hal⟩ := (resolve_all_inv w acts b).2.1 j e hj
    rw [hid]
    exact hagree j e0 h0 (hal ▸ he)
  rw [resolve_toggles_congr _ acts acts' hagree2]
  have hagree3 : ∀ j e,
      (MovementResolver.resolve_toggles (MovementResolver.resolve_all w acts b).1 acts).1.entities.get? j
        = some e →
      e.alive = true → Actions.get acts' e.id = Actions.get acts e.id := by
    intro j e hj he
    obtain ⟨e0, h0, hid, hal, _⟩ :=
      (resolve_toggles_inv (MovementResolver.resolve_all w acts b).1 acts).2.1 j e hj
    rw [hid]
    exact hagree2 j e0 h0 (hal ▸ he)
  rw [resolve_waits_congr _ acts acts' hagree3]

/-- C9: an action failing entity-level validation resolves to a no-op —
the world is returned unchanged (position, ammo and flags untouched),
the movement result is a failure carrying the validation's message, and
the validation itself carries a structured error code; the resolver
never escapes (totality is by construction: `resolve_single` is a total
function into world-times-result).  Every queued mover still receives
exactly one result.  An action keyed by an id belonging to no living
entity (dead or unknown) is ignored: inserting it leaves the whole
movement/toggle/wait resolution unchanged. -/
theorem action_error_handling (w : WorldState) (acts : Actions) (b : Bool)
    (idx : ℕ) (e : Entity) (a : Action) (k : ℕ) (ka : Action)
    (hget : w.entities.get? idx = some e)
    (hbad : (e.validate_action a).valid = false)
    (hk : ∀ f ∈ w.entities, f.alive = true → f.id ≠ k) :
    (MovementResolver.resolve_single w idx a).1 = w
    ∧ (MovementResolver.resolve_single w idx a).2.success = false
    ∧ (MovementResolver.resolve_single w idx a).2.old_pos = e.pos
    ∧ (MovementResolver.resolve_single w idx a).2.new_pos = e.pos
    ∧ (MovementResolver.resolve_single w idx a).2.log = (e.validate_action a).message
    ∧ (∃ c, (e.validate_action a).error_code = some c)
    ∧ (MovementResolver.resolve_actions w acts b).2.movement_results.length
        = (movingIndices w acts).length
    ∧ MovementResolver.resolve_actions w (acts ++ [(k, ka)]) b
        = MovementResolver.resolve_actions w acts b := by
  have hr : MovementResolver.resolve_single w idx a
      = (w, { entity_id := e.id, success := false, old_pos := e.pos,
              new_pos := e.pos, log := (e.validate_action a).message }) := by
    unfold MovementResolver.resolve_single
    rw [hget]
    dsimp only
    rw [if_pos (by simp [hbad])]
  refine ⟨by rw [hr], by rw [hr], by rw [hr], by rw [hr], by rw [hr],
    validate_invalid_has_code e a hbad, (resolve_actions_inv w acts b).2.2.2, ?_⟩
  apply resolve_actions_congr
  intro j f hj hf
  exact actions_get_append_ne acts k f.id ka (hk f (List.get?_mem hj) hf)

/-- Witness for C9: the SAM cannot move, so MOVE UP for it is a no-op
with an error; action map entries keyed by the unknown id 99 are
ignored. -/
theorem action_error_handling_witness :
    (MovementResolver.resolve_single pipeWorld 0 (.move .UP)).1 = pipeWorld
    ∧ (MovementResolver.resolve_single pipeWorld 0 (.move .UP)).2.success = false
    ∧ MovementResolver.resolve_actions pipeWorld (pipeActs ++ [(99, .wait)]) true
        = MovementResolver.resolve_actions pipeWorld pipeActs true := by
  have h := action_error_handling pipeWorld pipeActs true 0 pipeSam (.move .UP) 99 .wait
    (by decide) (by decide) (by decide)
  exact ⟨h.1, h.2.1, h.2.2.2.2.2.2.2⟩

/-- Parsing a serialized team name returns the team. -/
theorem team_ofName_name (t : Team) : Team.ofName t.name = some t := by
  cases t <;> rfl

/-- One entity of a known kind (with the decoy's fixed radar range)
round-trips at the dict level. -/
theorem entity_roundtrip (e : Entity)
    (hk : e.kind = .awacs ∨ e.kind = .aircraft ∨ e.kind = .sam
          ∨ (e.kind = .decoy ∧ e.radarRange = 0)) :
    ∃ e', Entity.from_dict e.to_dict = some e' ∧ e'.to_dict = e.to_dict := by
  obtain ⟨eid, team, pos, kind, nm, alv, cm, cs, rr, ms, mmr, bhp, mhp, ron, cds, cd, la⟩ := e
  rcases hk with hk | hk | hk | ⟨hk, hr⟩ <;> dsimp only at hk <;> subst hk
  · cases team <;> exact ⟨_, rfl, rfl⟩
  · cases team <;> exact ⟨_, rfl, rfl⟩
  · cases team <;> exact ⟨_, rfl, rfl⟩
  · dsimp only at hr
    subst hr
    cases team <;> exact ⟨_, rfl, rfl⟩

/-- A list of known-kind entities round-trips at the dict level. -/
theorem entities_roundtrip (l : List Entity)
    (h : ∀ e ∈ l, e.kind = .awacs ∨ e.kind = .aircraft ∨ e.kind = .sam
          ∨ (e.kind = .decoy ∧ e.radarRange = 0)) :
    ∃ es, (l.map Entity.to_dict).mapM Entity.from_dict = some es
      ∧ es.map Entity.to_dict = l.map Entity.to_dict := by
  induction l with
  | nil => exact ⟨[], rfl, rfl⟩
  | cons x xs ih =>
    obtain ⟨e', he1, he2⟩ := entity_roundtrip x (h x (List.mem_cons_self _ _))
    obtain ⟨es, hm1, hm2⟩ := ih (fun e he => h e (List.mem_cons_of_mem _ he))
    refine ⟨e' :: es, ?_, ?_⟩
    · rw [List.map_cons, List.mapM_cons, he1, hm1]
      rfl
    · rw [List.map_cons, List.map_cons, he2, hm2]

/-- Deserializing a serialized team view restores the team and the
persistent firing history (observations are derived state). -/
theorem teamView_from_to (v : TeamView) :
    TeamView.from_dict v.to_dict
      = some { team := v.team, observations := [], friendly_ids := [],
               visible_enemy_ids := [],
               enemy_firing_history := v.enemy_firing_history } := by
  unfold TeamView.from_dict TeamView.to_dict TeamView.init
  dsimp only
  rw [team_ofName_name]

/-- C6: serialization round-trips at the serialized level —
re-serializing the deserialized form of `to_dict` yields the identical
dict (hence byte-identical JSON), carrying the entities, the team views'
persistent firing history, the RNG state and all turn counters.  The
preconditions are exactly the states the program produces: positive grid
dimensions, views stored under their own team slots, entity kinds among
the four constructible kinds, and decoys with the constructor's fixed
radar range 0 (`Decoy._from_dict_impl` rebuilds through the Decoy
constructor, so a decoy with a nonzero serialized radar range would not
round-trip — no code path creates one). -/
theorem world_roundtrip (w : WorldState)
    (hgw : 0 < w.grid.width) (hgh : 0 < w.grid.height)
    (hbv : w.blueView.team = .BLUE) (hrv : w.redView.team = .RED)
    (hent : ∀ e ∈ w.entities, e.kind = .awacs ∨ e.kind = .aircraft ∨ e.kind = .sam
          ∨ (e.kind = .decoy ∧ e.radarRange = 0)) :
    ∃ w', WorldState.from_dict w.to_dict = some w' ∧ w'.to_dict = w.to_dict := by
  obtain ⟨es, hes1, hes2⟩ := entities_roundtrip w.entities hent
  unfold WorldState.from_dict WorldState.to_dict WorldState.init
  dsimp only
  rw [if_neg (by omega)]
  cases hw : w.winner with
  | none =>
    dsimp only [Option.map]
    rw [hes1]
    dsimp only
    rw [teamView_from_to, teamView_from_to]
    dsimp only
    rw [hbv, hrv]
    unfold WorldState.set_team_view
    dsimp only
    refine ⟨_, rfl, ?_⟩
    rw [hes2]
    simp [TeamView.to_dict, hbv, hrv]
  | some t =>
    dsimp only [Option.map]
    rw [team_ofName_name]
    dsimp only [Option.map]
    rw [hes1]
    dsimp only
    rw [teamView_from_to, teamView_from_to]
    dsimp only
    rw [hbv, hrv]
    unfold WorldState.set_team_view
    dsimp only
    refine ⟨_, rfl, ?_⟩
    rw [hes2]
    simp [TeamView.to_dict, hbv, hrv]

/-- Witness for C6 at a world holding all four kinds. -/
theorem world_roundtrip_witness :
    ∃ w', WorldState.from_dict c6World.to_dict = some w'
      ∧ w'.to_dict = c6World.to_dict :=
  world_roundtrip c6World (by decide) (by decide) (by decide) (by decide) (by decide)

/-- Witness for C5 at distance 1, range 2, base 4/5, minimum 1/10. -/
theorem hit_probability_bounds_witness :
    (0 : ℚ) < 2 ∧ (0 : ℚ) ≤ 1 ∧ (1 : ℚ) ≤ 2 ∧ (0 : ℚ) < 1/10 ∧ (1 : ℚ)/10 ≤ 4/5
    ∧ ((1 : ℚ)/10 ≤ hit_probability 1 2 (4/5) (1/10)
       ∧ hit_probability 1 2 (4/5) (1/10) ≤ 4/5) := by
  refine ⟨by norm_num, by norm_num, by norm_num, by norm_num, by norm_num, ?_, ?_⟩
  · exact (hit_probability_bounds 1 2 (4/5) (1/10) (by norm_num) (by norm_num)
      (by norm_num) (by norm_num) (by norm_num)).2.1
  · exact (hit_probability_bounds 1 2 (4/5) (1/10) (by norm_num) (by norm_num)
      (by norm_num) (by norm_num) (by norm_num)).2.2.1

end Wargame
